import Mathlib

/-!
Verification development for the dust-dds DDS/RTPS middleware.

Each section embeds one component of the implementation as executable Lean
definitions (shallow embedding: structs become structures, `Vec` becomes
`List`, `HashMap` becomes an association list, fallible calls return
`Option`/`Except`, machine integers become `Nat`/`Int` with explicit
truncation where overflow matters) and proves the properties claimed of it.
Definitions whose Rust source is not part of the repository snapshot are
marked `Modelled from the spec:` in their doc comment.
-/

namespace DustDds

/-- RTPS sequence numbers are signed 64-bit integers; modelled as `Int`
(the i64 range is never exceeded by the operations considered here). -/
abbrev SequenceNumber := Int

/-- A 16-byte RTPS GUID: 12-byte guid prefix plus 4-byte entity id.
Only identity (equality) of the two components matters to the endpoint
logic, so each component is modelled as an opaque `Nat`. -/
structure Guid where
  guidPre : Nat
  entityId : Nat
  deriving DecidableEq, Repr

/-- `Guid::new(prefix, entity_id)`. -/
def Guid.new (p : Nat) (e : Nat) : Guid := ⟨p, e⟩

/-! ## History caches (`rtps_history_cache_impl.rs`, `rtps_writer_history_cache_impl.rs`) -/

/-- `ChangeKind` of a cache change (`rtps_pim` / `transport::types`). -/
inductive ChangeKind where
  | Alive
  | AliveFiltered
  | NotAliveDisposed
  | NotAliveUnregistered
  deriving DecidableEq, Repr

/-- `RTPSCacheChangeImpl`: kind, writer GUID, instance handle, sequence
number and serialized data of one sample. -/
structure RTPSCacheChangeImpl where
  kind : ChangeKind
  writerGuid : Guid
  instanceHandle : Nat
  sequenceNumber : SequenceNumber
  dataValue : List Nat
  deriving DecidableEq, Repr

/-- `RTPSHistoryCacheImpl`: a plain vector of cache changes. -/
structure RTPSHistoryCacheImpl where
  changes : List RTPSCacheChangeImpl
  deriving DecidableEq, Repr

/-- `RTPSHistoryCacheImpl::new`. -/
def RTPSHistoryCacheImpl.new : RTPSHistoryCacheImpl := ⟨[]⟩

/-- `RTPSHistoryCacheImpl::add_change`: pushes the change unconditionally. -/
def RTPSHistoryCacheImpl.add_change (hc : RTPSHistoryCacheImpl)
    (change : RTPSCacheChangeImpl) : RTPSHistoryCacheImpl :=
  ⟨hc.changes ++ [change]⟩

/-- `RTPSHistoryCacheImpl::remove_change`: retains the changes whose
sequence number differs from `seq_num`. -/
def RTPSHistoryCacheImpl.remove_change (hc : RTPSHistoryCacheImpl)
    (seqNum : SequenceNumber) : RTPSHistoryCacheImpl :=
  ⟨hc.changes.filter (fun cc => cc.sequenceNumber ≠ seqNum)⟩

/-- `RTPSHistoryCacheImpl::get_change`: first change with the sequence number. -/
def RTPSHistoryCacheImpl.get_change (hc : RTPSHistoryCacheImpl)
    (seqNum : SequenceNumber) : Option RTPSCacheChangeImpl :=
  hc.changes.find? (fun cc => cc.sequenceNumber == seqNum)

/-- Writer-side cache change stored by `WriterHistoryCache` (the fields kept
after `add_change` translates an incoming `RtpsCacheChange`). -/
structure WriterCacheChange where
  kind : ChangeKind
  writerGuid : Guid
  sequenceNumber : SequenceNumber
  instanceHandle : Nat
  data : List Nat
  deriving DecidableEq, Repr

/-- `WriterHistoryCache`. -/
structure WriterHistoryCache where
  changes : List WriterCacheChange
  deriving DecidableEq, Repr

/-- `WriterHistoryCache::new`. -/
def WriterHistoryCache.new : WriterHistoryCache := ⟨[]⟩

/-- `WriterHistoryCache::add_change`: translates the incoming change and
pushes it unconditionally.  The source computes an instance-state kind from
the change kind and hits `todo!()` for `NotAliveUnregistered`; that panic is
modelled as `none`. -/
def WriterHistoryCache.add_change (hc : WriterHistoryCache)
    (change : WriterCacheChange) : Option WriterHistoryCache :=
  match change.kind with
  | ChangeKind.NotAliveUnregistered => none
  | _ => some ⟨hc.changes ++ [change]⟩

/-- `WriterHistoryCache::remove_change`. -/
def WriterHistoryCache.remove_change (hc : WriterHistoryCache)
    (seqNum : SequenceNumber) : WriterHistoryCache :=
  ⟨hc.changes.filter (fun cc => cc.sequenceNumber ≠ seqNum)⟩

/-! ## Participant / publisher / subscriber deletion
(`domain_participant_actor.rs`, `domain_participant_factory_actor.rs`) -/

/-- The DDS result-kind taxonomy (subset relevant to the deletion paths). -/
inductive DdsError where
  | PreconditionNotMet (msg : String)
  | BadParameter
  | AlreadyDeleted
  | NotEnabled
  deriving DecidableEq, Repr

/-- State of a `PublisherActor` visible to the deletion logic: its data
writer list (writers modelled by their instance handles). -/
structure PublisherActorModel where
  dataWriterList : List Nat
  deriving DecidableEq, Repr

/-- State of a `SubscriberActor` visible to the deletion logic. -/
structure SubscriberActorModel where
  dataReaderList : List Nat
  deriving DecidableEq, Repr

/-- `SubscriberActor::is_empty`: no data readers. -/
def SubscriberActorModel.is_empty (s : SubscriberActorModel) : Bool :=
  s.dataReaderList.isEmpty

/-- State of the `DomainParticipantActor` visible to the deletion logic.
The `HashMap<InstanceHandle, Actor>` tables are modelled as association
lists keyed by the instance handle (a `Nat`). -/
structure DomainParticipantActorModel where
  userDefinedPublisherList : List (Nat × PublisherActorModel)
  userDefinedSubscriberList : List (Nat × SubscriberActorModel)
  topicList : List String
  deriving DecidableEq, Repr

/-- `DomainParticipantActor::delete_user_defined_publisher`. -/
def DomainParticipantActorModel.delete_user_defined_publisher
    (s : DomainParticipantActorModel) (handle : Nat) :
    DomainParticipantActorModel × Except DdsError Unit :=
  match s.userDefinedPublisherList.lookup handle with
  | some p =>
    if !p.dataWriterList.isEmpty then
      (s, Except.error (DdsError.PreconditionNotMet
        "Publisher still contains data writers"))
    else
      ({ s with userDefinedPublisherList :=
          s.userDefinedPublisherList.filter (fun kv => kv.1 ≠ handle) },
       Except.ok ())
  | none =>
    (s, Except.error (DdsError.PreconditionNotMet
      "Publisher can only be deleted from its parent participant"))

/-- `DomainParticipantActor::delete_user_defined_subscriber`. -/
def DomainParticipantActorModel.delete_user_defined_subscriber
    (s : DomainParticipantActorModel) (handle : Nat) :
    DomainParticipantActorModel × Except DdsError Unit :=
  match s.userDefinedSubscriberList.lookup handle with
  | some sub =>
    if !sub.is_empty then
      (s, Except.error (DdsError.PreconditionNotMet
        "Subscriber still contains data readers"))
    else
      ({ s with userDefinedSubscriberList :=
          s.userDefinedSubscriberList.filter (fun kv => kv.1 ≠ handle) },
       Except.ok ())
  | none =>
    (s, Except.error (DdsError.PreconditionNotMet
      "Subscriber can only be deleted from its parent participant"))

/-- `BUILT_IN_TOPIC_NAME_LIST`. -/
def BUILT_IN_TOPIC_NAME_LIST : List String :=
  ["DCPSParticipant", "DCPSTopic", "DCPSPublication", "DCPSSubscription"]

/-- `DomainParticipantActor::is_empty`: no user-defined publishers, no
user-defined subscribers, and no user-defined (non-built-in) topics. -/
def DomainParticipantActorModel.is_empty (s : DomainParticipantActorModel) : Bool :=
  (s.topicList.filter
      (fun t => !BUILT_IN_TOPIC_NAME_LIST.contains t)).length == 0
  && s.userDefinedPublisherList.length == 0
  && s.userDefinedSubscriberList.length == 0

/-- State of the `DomainParticipantFactoryActor`: participant table. -/
structure DomainParticipantFactoryActorModel where
  domainParticipantList : List (Nat × DomainParticipantActorModel)
  deriving DecidableEq, Repr

/-- `DomainParticipantFactoryActor::delete_participant`.  The source indexes
the table (`self.domain_participant_list[&handle]`), which panics when the
handle is absent; the panic is modelled as `none`. -/
def DomainParticipantFactoryActorModel.delete_participant
    (s : DomainParticipantFactoryActorModel) (handle : Nat) :
    Option (DomainParticipantFactoryActorModel × Except DdsError Unit) :=
  match s.domainParticipantList.lookup handle with
  | none => none
  | some dp =>
    if dp.is_empty then
      some ({ s with domainParticipantList :=
          s.domainParticipantList.filter (fun kv => kv.1 ≠ handle) },
        Except.ok ())
    else
      some (s, Except.error (DdsError.PreconditionNotMet
        "Domain participant still contains other entities"))

/-! ## Stateful writer (`dds/src/rtps/stateful_writer.rs`) -/

/-- `ReliabilityKind` (`transport::types`). -/
inductive ReliabilityKind where
  | BestEffort
  | Reliable
  deriving DecidableEq, Repr

/-- `DurabilityKind` (`transport::types`). -/
inductive DurabilityKind where
  | Volatile
  | TransientLocal
  | Transient
  | Persistent
  deriving DecidableEq, Repr

/-- A locator, opaque to the writer logic. -/
abbrev Locator := Nat

/-- `ENTITYID_UNKNOWN`. -/
def ENTITYID_UNKNOWN : Nat := 0

/-- `transport::writer::ReaderProxy`: the discovered description of a remote
reader handed to `add_matched_reader`. -/
structure ReaderProxy where
  remote_reader_guid : Guid
  remote_group_entity_id : Nat
  unicast_locator_list : List Locator
  multicast_locator_list : List Locator
  expects_inline_qos : Bool
  reliability_kind : ReliabilityKind
  durability_kind : DurabilityKind
  deriving DecidableEq, Repr

/-- Modelled from the spec: `transport::history_cache::CacheChange`
(`history_cache.rs` is not in the sources).  Fields used by the stateful
writer: kind, writer GUID, sequence number, source timestamp and serialized
payload. -/
structure CacheChange where
  kind : ChangeKind
  writerGuid : Guid
  sequenceNumber : SequenceNumber
  sourceTimestamp : Option Int
  dataValue : List Nat
  deriving DecidableEq, Repr

/-- An outgoing RTPS submessage as handed to the message sender.  Only the
fields the stateful-writer claims inspect are carried. -/
inductive OutSubmessage where
  | infoDst (guidPre : Nat)
  | infoTs (invalidateFlag : Bool) (time : Int)
  | data (readerId writerId : Nat) (writerSn : SequenceNumber) (payload : List Nat)
  | dataFrag (readerId writerId : Nat) (writerSn : SequenceNumber)
      (fragmentStartingNum fragmentsInSubmessage fragmentSize dataSize : Nat)
      (keyFlag : Bool) (payload : List Nat)
  | gap (readerId writerId : Nat) (gapStart gapListBase : SequenceNumber)
  | heartbeat (writerId : Nat) (firstSn lastSn : SequenceNumber) (count : Nat)
  deriving DecidableEq, Repr

/-- The payload of a DATAFRAG submessage, `none` for any other kind. -/
def OutSubmessage.dataFragPayload : OutSubmessage → Option (List Nat)
  | OutSubmessage.dataFrag _ _ _ _ _ _ _ _ p => some p
  | _ => none

/-- Whether a submessage is a DATA submessage. -/
def OutSubmessage.isData : OutSubmessage → Bool
  | OutSubmessage.data _ _ _ _ => true
  | _ => false

/-- Whether a submessage is a DATAFRAG submessage. -/
def OutSubmessage.isDataFrag : OutSubmessage → Bool
  | OutSubmessage.dataFrag _ _ _ _ _ _ _ _ _ => true
  | _ => false

/-- Whether a submessage is a GAP submessage. -/
def OutSubmessage.isGap : OutSubmessage → Bool
  | OutSubmessage.gap _ _ _ _ => true
  | _ => false

/-- Modelled from the spec: the `HeartbeatMachine` of a reader proxy keeps
the next heartbeat count; generating a heartbeat increments it. -/
structure HeartbeatMachine where
  count : Nat
  deriving DecidableEq, Repr

/-- Modelled from the spec: `HeartbeatMachine::generate_new_heartbeat`
builds a HEARTBEAT submessage with a fresh monotonic count. -/
def HeartbeatMachine.generate_new_heartbeat (hm : HeartbeatMachine)
    (writerId : Nat) (firstSn lastSn : SequenceNumber) :
    OutSubmessage × HeartbeatMachine :=
  (OutSubmessage.heartbeat writerId firstSn lastSn (hm.count + 1),
   ⟨hm.count + 1⟩)

/-- Modelled from the spec: `RtpsReaderProxy` (`reader_proxy.rs` is not in
the sources).  Per matched reader the writer records the remote GUID and
locators, reliability, the first-relevant-sample sequence number decided at
match time, the highest sent sequence number, the requested-changes set,
the last received acknack/nackfrag counts and a heartbeat machine. -/
structure RtpsReaderProxy where
  remoteReaderGuid : Guid
  remoteGroupEntityId : Nat
  unicastLocatorList : List Locator
  multicastLocatorList : List Locator
  expectsInlineQos : Bool
  isActive : Bool
  reliability : ReliabilityKind
  firstRelevantSampleSeqNum : SequenceNumber
  highestSentSeqNum : SequenceNumber
  requestedChanges : List SequenceNumber
  lastReceivedAcknackCount : Nat
  lastReceivedNackFragCount : Nat
  heartbeatMachine : HeartbeatMachine
  deriving DecidableEq, Repr

/-- Modelled from the spec: `RtpsReaderProxy::new` as invoked by
`add_matched_reader`; tracking state starts empty. -/
def RtpsReaderProxy.new (remoteReaderGuid : Guid) (remoteGroupEntityId : Nat)
    (unicastLocatorList multicastLocatorList : List Locator)
    (expectsInlineQos isActive : Bool) (reliability : ReliabilityKind)
    (firstRelevantSampleSeqNum : SequenceNumber) : RtpsReaderProxy :=
  ⟨remoteReaderGuid, remoteGroupEntityId, unicastLocatorList,
   multicastLocatorList, expectsInlineQos, isActive, reliability,
   firstRelevantSampleSeqNum, 0, [], 0, 0, ⟨0⟩⟩

/-- `RtpsStatefulWriter`. -/
structure RtpsStatefulWriter where
  guid : Guid
  changes : List CacheChange
  matched_readers : List RtpsReaderProxy
  heartbeat_period_millis : Nat
  data_max_size_serialized : Nat
  deriving DecidableEq, Repr

/-- `RtpsStatefulWriter::new`. -/
def RtpsStatefulWriter.new (guid : Guid) (dataMaxSizeSerialized : Nat) :
    RtpsStatefulWriter :=
  ⟨guid, [], [], 200, dataMaxSizeSerialized⟩

/-- `RtpsStatefulWriter::add_matched_reader`: returns unchanged when a proxy
with the same remote GUID exists; otherwise computes the
first-relevant-sample sequence number from the reader's durability
(`Volatile`: the writer's current maximum sequence number, 0 when the cache
is empty; `TransientLocal`/`Transient`/`Persistent`: 0) and pushes a new
proxy. -/
def RtpsStatefulWriter.add_matched_reader (w : RtpsStatefulWriter)
    (reader_proxy : ReaderProxy) : RtpsStatefulWriter :=
  if w.matched_readers.any
      (fun rp => rp.remoteReaderGuid == reader_proxy.remote_reader_guid) then
    w
  else
    let first_relevant_sample_seq_num : SequenceNumber :=
      match reader_proxy.durability_kind with
      | DurabilityKind.Volatile =>
        ((w.changes.map CacheChange.sequenceNumber).max?).getD 0
      | DurabilityKind.TransientLocal | DurabilityKind.Transient
      | DurabilityKind.Persistent => 0
    { w with matched_readers := w.matched_readers ++
        [RtpsReaderProxy.new reader_proxy.remote_reader_guid
          reader_proxy.remote_group_entity_id
          reader_proxy.unicast_locator_list
          reader_proxy.multicast_locator_list
          reader_proxy.expects_inline_qos true
          reader_proxy.reliability_kind
          first_relevant_sample_seq_num] }

/-- `RtpsStatefulWriter::delete_matched_reader`. -/
def RtpsStatefulWriter.delete_matched_reader (w : RtpsStatefulWriter)
    (readerGuid : Guid) : RtpsStatefulWriter :=
  { w with matched_readers :=
      w.matched_readers.filter (fun rp => rp.remoteReaderGuid ≠ readerGuid) }

/-- The contiguous slice `l[s..e]` of a byte vector. -/
def listSlice (l : List Nat) (s e : Nat) : List Nat := (l.take e).drop s

/-- The key flag derived from a change kind in the DATAFRAG construction;
`AliveFiltered` hits the source's `todo!()` and is `none`. -/
def keyFlagOfKind : ChangeKind → Option Bool
  | ChangeKind.Alive => some false
  | ChangeKind.NotAliveDisposed => some true
  | ChangeKind.NotAliveUnregistered => some true
  | ChangeKind.AliveFiltered => none

/-- Modelled from the spec: `CacheChange::as_data_submessage` builds a DATA
submessage carrying the change's sequence number and serialized payload. -/
def CacheChange.as_data_submessage (cc : CacheChange)
    (readerId writerId : Nat) : OutSubmessage :=
  OutSubmessage.data readerId writerId cc.sequenceNumber cc.dataValue

/-- The INFO_TS submessage built from a change's source timestamp (invalid
time when absent). -/
def infoTsOf (cc : CacheChange) : OutSubmessage :=
  match cc.sourceTimestamp with
  | some t => OutSubmessage.infoTs false t
  | none => OutSubmessage.infoTs true 0

/-- The sequence of `message_sender.write_message` calls performed by the
DATAFRAG loop for one cache change: one `[INFO_DST, INFO_TS, DATAFRAG]`
message per fragment index, the fragment payload being the slice
`[frag_index·dmss .. min((frag_index+1)·dmss, len))` of the change's data. -/
def dataFragMessages (readerGuid : Guid) (writerId : Nat) (dmss : Nat)
    (cc : CacheChange) (keyFlag : Bool) : List (List OutSubmessage) :=
  let numberOfFragments := (cc.dataValue.length + dmss - 1) / dmss
  (List.range numberOfFragments).map (fun fragIndex =>
    [OutSubmessage.infoDst readerGuid.guidPre, infoTsOf cc,
     OutSubmessage.dataFrag readerGuid.entityId writerId cc.sequenceNumber
       (fragIndex + 1) 1 dmss cc.dataValue.length keyFlag
       (listSlice cc.dataValue (fragIndex * dmss)
         (min ((fragIndex + 1) * dmss) cc.dataValue.length))])

/-- `send_change_message_reader_proxy_reliable`: sends one cache change to a
reliable reader proxy.  A change found in the cache whose sequence number is
strictly greater than the proxy's first-relevant-sample sequence number is
sent as DATAFRAG fragments (when `ceil(len/dmss) > 1`) or as a single
`INFO_DST + INFO_TS + DATA + HEARTBEAT` message; otherwise an
`INFO_DST + GAP` message is sent.  Returns the updated proxy and the list of
`write_message` calls; `none` models the source's `todo!()` panic on an
`AliveFiltered` change in the fragmentation branch. -/
def send_change_message_reader_proxy_reliable (reader_proxy : RtpsReaderProxy)
    (writerId : Nat) (changes : List CacheChange)
    (seqNumMin seqNumMax : Option SequenceNumber) (dmss : Nat)
    (changeSeqNum : SequenceNumber) :
    Option (RtpsReaderProxy × List (List OutSubmessage)) :=
  match changes.find? (fun cc => cc.sequenceNumber == changeSeqNum) with
  | some cache_change =>
    if reader_proxy.firstRelevantSampleSeqNum < changeSeqNum then
      if dmss = 0 then none else  -- `usize::div_ceil` panics on a zero divisor
      let numberOfFragments := (cache_change.dataValue.length + dmss - 1) / dmss
      if 1 < numberOfFragments then
        match keyFlagOfKind cache_change.kind with
        | none => none
        | some keyFlag =>
          some (reader_proxy,
            dataFragMessages reader_proxy.remoteReaderGuid writerId dmss
              cache_change keyFlag)
      else
        let firstSn := seqNumMin.getD 1
        let lastSn := seqNumMax.getD 0
        let hb := reader_proxy.heartbeatMachine.generate_new_heartbeat
          writerId firstSn lastSn
        some ({ reader_proxy with heartbeatMachine := hb.2 },
          [[OutSubmessage.infoDst reader_proxy.remoteReaderGuid.guidPre,
            infoTsOf cache_change,
            cache_change.as_data_submessage
              reader_proxy.remoteReaderGuid.entityId writerId,
            hb.1]])
    else
      some (reader_proxy,
        [[OutSubmessage.infoDst reader_proxy.remoteReaderGuid.guidPre,
          OutSubmessage.gap ENTITYID_UNKNOWN writerId changeSeqNum
            (changeSeqNum + 1)]])
  | none =>
    some (reader_proxy,
      [[OutSubmessage.infoDst reader_proxy.remoteReaderGuid.guidPre,
        OutSubmessage.gap ENTITYID_UNKNOWN writerId changeSeqNum
          (changeSeqNum + 1)]])

/-- `RtpsReaderProxy::set_highest_sent_seq_num` (modelled from the spec:
records the highest sequence number handed to the sender). -/
def RtpsReaderProxy.set_highest_sent_seq_num (p : RtpsReaderProxy)
    (sn : SequenceNumber) : RtpsReaderProxy :=
  { p with highestSentSeqNum := sn }

/-- Modelled from the spec: `RtpsReaderProxy::next_unsent_change` returns
the lowest cache-change sequence number not yet sent (strictly above
`highest_sent_seq_num`), if any.  It performs no first-relevant filtering —
in the source that happens at the send site (the strict `>` guard of
`send_change_message_reader_proxy_reliable`). -/
def RtpsReaderProxy.next_unsent_change (p : RtpsReaderProxy)
    (changes : List CacheChange) : Option SequenceNumber :=
  ((changes.map CacheChange.sequenceNumber).filter
    (fun sn => decide (p.highestSentSeqNum < sn))).min?

/-- `send_message_to_reader_proxy_best_effort`: the best-effort send loop.
Each iteration takes the next unsent sequence number; a jump past
`highest_sent + 1` emits a GAP covering the skipped range, a change found
in the cache is sent as DATAFRAG fragments (when `ceil(len/dmss) > 1`) or a
single `INFO_DST + INFO_TS + DATA` message, and a sequence number with no
cache entry is answered by a GAP; `highest_sent_seq_num` then advances.
The loop is bounded by `fuel` (the source's `while` always terminates as
each round strictly raises `highest_sent_seq_num`; exhausted fuel is
`none`), and the source's panics (`div_ceil` on zero, the `todo!()` on an
`AliveFiltered` change) are `none` as well. -/
def send_message_to_reader_proxy_best_effort (fuel : Nat)
    (reader_proxy : RtpsReaderProxy) (writerId : Nat)
    (changes : List CacheChange) (dmss : Nat) :
    Option (RtpsReaderProxy × List (List OutSubmessage)) :=
  match fuel with
  | 0 => none
  | fuel + 1 =>
    match reader_proxy.next_unsent_change changes with
    | none => some (reader_proxy, [])
    | some next_unsent_change_seq_num =>
      if reader_proxy.highestSentSeqNum + 1 < next_unsent_change_seq_num then
        let gap_start_sequence_number := reader_proxy.highestSentSeqNum + 1
        let gap_end_sequence_number := next_unsent_change_seq_num - 1
        let gap_submessage :=
          [OutSubmessage.gap reader_proxy.remoteReaderGuid.entityId writerId
            gap_start_sequence_number (gap_end_sequence_number + 1)]
        match send_message_to_reader_proxy_best_effort fuel
            (reader_proxy.set_highest_sent_seq_num next_unsent_change_seq_num)
            writerId changes dmss with
        | none => none
        | some pr => some (pr.1, gap_submessage :: pr.2)
      else
        match changes.find?
            (fun cc => cc.sequenceNumber == next_unsent_change_seq_num) with
        | some cache_change =>
          if dmss = 0 then none
          else
            let numberOfFragments :=
              (cache_change.dataValue.length + dmss - 1) / dmss
            let sent : Option (List (List OutSubmessage)) :=
              if 1 < numberOfFragments then
                match keyFlagOfKind cache_change.kind with
                | none => none
                | some keyFlag =>
                  some (dataFragMessages reader_proxy.remoteReaderGuid
                    writerId dmss cache_change keyFlag)
              else
                some [[OutSubmessage.infoDst
                    reader_proxy.remoteReaderGuid.guidPre,
                  infoTsOf cache_change,
                  cache_change.as_data_submessage
                    reader_proxy.remoteReaderGuid.entityId writerId]]
            match sent with
            | none => none
            | some msgs =>
              match send_message_to_reader_proxy_best_effort fuel
                  (reader_proxy.set_highest_sent_seq_num
                    next_unsent_change_seq_num) writerId changes dmss with
              | none => none
              | some pr => some (pr.1, msgs ++ pr.2)
        | none =>
          match send_message_to_reader_proxy_best_effort fuel
              (reader_proxy.set_highest_sent_seq_num
                next_unsent_change_seq_num) writerId changes dmss with
          | none => none
          | some pr =>
            some (pr.1,
              [[OutSubmessage.gap ENTITYID_UNKNOWN writerId
                next_unsent_change_seq_num
                (next_unsent_change_seq_num + 1)]] ++ pr.2)

/-! ### Fragmentation lemmas -/

theorem listSlice_eq_drop_take (l : List Nat) (d i : Nat) :
    listSlice l (i * d) (min ((i + 1) * d) l.length) = (l.drop (i * d)).take d := by
  unfold listSlice
  rw [List.drop_take]
  have hexp : (i + 1) * d = i * d + d := by ring
  rcases le_total ((i + 1) * d) l.length with h | h
  · rw [min_eq_left h]
    congr 1
    omega
  · rw [min_eq_right h]
    have hlen : (l.drop (i * d)).length = l.length - i * d := List.length_drop _ _
    rw [List.take_of_length_le (le_of_eq_of_le hlen (by omega)),
      List.take_of_length_le (le_of_eq_of_le hlen (by omega))]

theorem chunks_flatten (d : Nat) :
    ∀ (n : Nat) (l : List Nat), l.length ≤ n * d →
    ((List.range n).map (fun i => (l.drop (i * d)).take d)).flatten = l := by
  intro n
  induction n with
  | zero =>
    intro l hl
    simp at hl
    simp [hl]
  | succ n ih =>
    intro l hl
    have hexp : (n + 1) * d = n * d + d := by ring
    rw [List.range_succ_eq_map, List.map_cons, List.map_map, List.flatten_cons]
    have hmap : (List.range n).map ((fun i => (l.drop (i * d)).take d) ∘ Nat.succ)
        = (List.range n).map (fun i => ((l.drop d).drop (i * d)).take d) := by
      refine List.map_congr_left (fun i _ => ?_)
      simp only [Function.comp]
      rw [List.drop_drop]
      congr 2
      rw [Nat.succ_eq_add_one]
      ring
    rw [hmap, ih (l.drop d) (by rw [List.length_drop]; omega)]
    simp

theorem filterMap_flatten {α β : Type} (p : α → Option β) (ll : List (List α)) :
    (ll.flatten).filterMap p = (ll.map (List.filterMap p)).flatten := by
  induction ll with
  | nil => rfl
  | cons x xs ih => simp [List.filterMap_append, ih]

theorem flatten_map_singleton {α β : Type} (f : α → β) (l : List α) :
    (l.map (fun a => [f a])).flatten = l.map f := by
  induction l with
  | nil => rfl
  | cons x xs ih => simp_all

/-- The DATAFRAG payloads extracted from the fragmentation loop's output are
exactly the consecutive `dmss`-sized chunks of the change's payload. -/
theorem dataFragMessages_payloads (g : Guid) (writerId dmss : Nat)
    (cc : CacheChange) (keyFlag : Bool) :
    ((dataFragMessages g writerId dmss cc keyFlag).flatten.filterMap
        OutSubmessage.dataFragPayload)
      = (List.range ((cc.dataValue.length + dmss - 1) / dmss)).map
          (fun i => (cc.dataValue.drop (i * dmss)).take dmss) := by
  unfold dataFragMessages
  rw [filterMap_flatten, List.map_map]
  have hmap : ∀ i ∈ List.range ((cc.dataValue.length + dmss - 1) / dmss),
      (List.filterMap OutSubmessage.dataFragPayload ∘ fun fragIndex =>
        [OutSubmessage.infoDst g.guidPre, infoTsOf cc,
         OutSubmessage.dataFrag g.entityId writerId cc.sequenceNumber
           (fragIndex + 1) 1 dmss cc.dataValue.length keyFlag
           (listSlice cc.dataValue (fragIndex * dmss)
             (min ((fragIndex + 1) * dmss) cc.dataValue.length))]) i
      = [(cc.dataValue.drop (i * dmss)).take dmss] := by
    intro i _
    simp only [Function.comp]
    rw [← listSlice_eq_drop_take]
    cases hts : cc.sourceTimestamp <;>
      simp [List.filterMap_cons, OutSubmessage.dataFragPayload, infoTsOf, hts]
  rw [List.map_congr_left hmap, flatten_map_singleton]

/-- The key arithmetic facts of the ceiling division used by the
fragmentation loops. -/
theorem fragCount_facts (len dmss : Nat) (hd : 0 < dmss) :
    len ≤ ((len + dmss - 1) / dmss) * dmss
    ∧ (1 < (len + dmss - 1) / dmss ↔ dmss < len) := by
  have hdiv1 : dmss * ((len + dmss - 1) / dmss) + (len + dmss - 1) % dmss
      = len + dmss - 1 := Nat.div_add_mod _ _
  have hdiv2 : (len + dmss - 1) % dmss < dmss := Nat.mod_lt _ hd
  have hcomm : ((len + dmss - 1) / dmss) * dmss
      = dmss * ((len + dmss - 1) / dmss) := Nat.mul_comm _ _
  refine ⟨by omega, ?_, ?_⟩
  · intro h
    have h2 : dmss * 2 ≤ dmss * ((len + dmss - 1) / dmss) :=
      Nat.mul_le_mul_left dmss (by omega)
    omega
  · intro h
    by_contra hle
    have h1 : dmss * ((len + dmss - 1) / dmss) ≤ dmss * 1 :=
      Nat.mul_le_mul_left dmss (by omega)
    omega

/-- The fragmentation loop's output for a payload larger than `dmss`:
`ceil(len/dmss)` DATAFRAG payloads that cover the change's payload in
order, each exactly `dmss` bytes except possibly the last, with no DATA
and no GAP among the emitted submessages. -/
theorem dataFragMessages_props (g : Guid) (writerId dmss : Nat)
    (cc : CacheChange) (kf : Bool) (hd : 0 < dmss)
    (hbig : dmss < cc.dataValue.length) :
    ((dataFragMessages g writerId dmss cc kf).flatten.filterMap
        OutSubmessage.dataFragPayload).length
      = (cc.dataValue.length + dmss - 1) / dmss
    ∧ ((dataFragMessages g writerId dmss cc kf).flatten.filterMap
        OutSubmessage.dataFragPayload).flatten = cc.dataValue
    ∧ (∀ p ∈ ((dataFragMessages g writerId dmss cc kf).flatten.filterMap
        OutSubmessage.dataFragPayload).dropLast, p.length = dmss)
    ∧ (dataFragMessages g writerId dmss cc kf).flatten.countP
        OutSubmessage.isData = 0
    ∧ (dataFragMessages g writerId dmss cc kf).flatten.countP
        OutSubmessage.isGap = 0 := by
  obtain ⟨hcover, hfrag_iff⟩ := fragCount_facts cc.dataValue.length dmss hd
  have hdiv1 : dmss * ((cc.dataValue.length + dmss - 1) / dmss)
        + (cc.dataValue.length + dmss - 1) % dmss
      = cc.dataValue.length + dmss - 1 := Nat.div_add_mod _ _
  have hdiv2 : (cc.dataValue.length + dmss - 1) % dmss < dmss :=
    Nat.mod_lt _ hd
  have hnogap : (dataFragMessages g writerId dmss cc kf).flatten.countP
      OutSubmessage.isGap = 0 := by
    rw [List.countP_eq_zero]
    intro a ha
    obtain ⟨msg, hmsg, hamem⟩ := List.mem_flatten.mp ha
    unfold dataFragMessages at hmsg
    obtain ⟨i, _, hmi⟩ := List.mem_map.mp hmsg
    rw [← hmi] at hamem
    simp only [List.mem_cons, List.not_mem_nil, or_false] at hamem
    rcases hamem with rfl | rfl | rfl
    · simp [OutSubmessage.isGap]
    · cases hts : cc.sourceTimestamp <;>
        simp [infoTsOf, hts, OutSubmessage.isGap]
    · simp [OutSubmessage.isGap]
  have hnodata : (dataFragMessages g writerId dmss cc kf).flatten.countP
      OutSubmessage.isData = 0 := by
    rw [List.countP_eq_zero]
    intro a ha
    obtain ⟨msg, hmsg, hamem⟩ := List.mem_flatten.mp ha
    unfold dataFragMessages at hmsg
    obtain ⟨i, _, hmi⟩ := List.mem_map.mp hmsg
    rw [← hmi] at hamem
    simp only [List.mem_cons, List.not_mem_nil, or_false] at hamem
    rcases hamem with rfl | rfl | rfl
    · simp [OutSubmessage.isData]
    · cases hts : cc.sourceTimestamp <;>
        simp [infoTsOf, hts, OutSubmessage.isData]
    · simp [OutSubmessage.isData]
  rw [dataFragMessages_payloads]
  refine ⟨by simp, ?_, ?_, hnodata, hnogap⟩
  · exact chunks_flatten dmss _ cc.dataValue hcover
  · intro p hp
    have h2 : 2 ≤ (cc.dataValue.length + dmss - 1) / dmss :=
      hfrag_iff.mpr hbig
    obtain ⟨m, hm⟩ : ∃ m, (cc.dataValue.length + dmss - 1) / dmss = m + 1 :=
      ⟨(cc.dataValue.length + dmss - 1) / dmss - 1, by omega⟩
    rw [hm, List.range_succ, List.map_append, List.map_cons, List.map_nil,
      List.dropLast_concat] at hp
    obtain ⟨i, hi, hpi⟩ := List.mem_map.mp hp
    have hilt : i < m := List.mem_range.mp hi
    have hmn : dmss * ((cc.dataValue.length + dmss - 1) / dmss)
        = dmss * m + dmss := by rw [hm]; ring
    have hsucc : (i + 1) * dmss ≤ m * dmss :=
      Nat.mul_le_mul_right dmss (by omega)
    have hsexp : (i + 1) * dmss = i * dmss + dmss := by ring
    have hmcomm : m * dmss = dmss * m := Nat.mul_comm _ _
    rw [← hpi, List.length_take, List.length_drop]
    omega

/-- C5: whenever a stateful writer sends a cache change — on the reliable
path (`send_change_message_reader_proxy_reliable`) or on the best-effort
path (`send_message_to_reader_proxy_best_effort`) — a serialized payload
larger than `data_max_size_serialized` is sent as `ceil(len/dmss)` DATAFRAG
submessages whose payloads, in order, cover the change's payload, each
carrying exactly `dmss` bytes except possibly the last; a change with
payload `≤ dmss` is sent as a single DATA submessage (and no DATAFRAG). -/
theorem C5_fragmentation (reader_proxy : RtpsReaderProxy) (writerId : Nat)
    (changes : List CacheChange) (seqNumMin seqNumMax : Option SequenceNumber)
    (dmss : Nat) (cc : CacheChange) (fuel : Nat)
    (be_proxy be_pr : RtpsReaderProxy) (be_rest : List (List OutSubmessage))
    (hd : 0 < dmss)
    (hfind : changes.find? (fun c => c.sequenceNumber == cc.sequenceNumber)
      = some cc)
    (hrel : reader_proxy.firstRelevantSampleSeqNum < cc.sequenceNumber)
    (hkind : cc.kind ≠ ChangeKind.AliveFiltered)
    (hnext : be_proxy.next_unsent_change changes = some cc.sequenceNumber)
    (hnogap : ¬ be_proxy.highestSentSeqNum + 1 < cc.sequenceNumber)
    (hcont : send_message_to_reader_proxy_best_effort fuel
      (be_proxy.set_highest_sent_seq_num cc.sequenceNumber) writerId changes
      dmss = some (be_pr, be_rest)) :
    (∃ pr out,
      send_change_message_reader_proxy_reliable reader_proxy writerId changes
        seqNumMin seqNumMax dmss cc.sequenceNumber = some (pr, out)
      ∧ (dmss < cc.dataValue.length →
          (out.flatten.filterMap OutSubmessage.dataFragPayload).length
              = (cc.dataValue.length + dmss - 1) / dmss
          ∧ (out.flatten.filterMap OutSubmessage.dataFragPayload).flatten
              = cc.dataValue
          ∧ (∀ p ∈ (out.flatten.filterMap
                OutSubmessage.dataFragPayload).dropLast, p.length = dmss)
          ∧ out.flatten.countP OutSubmessage.isData = 0)
      ∧ (cc.dataValue.length ≤ dmss →
          out.flatten.countP OutSubmessage.isData = 1
          ∧ out.flatten.countP OutSubmessage.isDataFrag = 0))
    ∧ (∃ msgs,
      send_message_to_reader_proxy_best_effort (fuel + 1) be_proxy writerId
        changes dmss = some (be_pr, msgs ++ be_rest)
      ∧ (dmss < cc.dataValue.length →
          (msgs.flatten.filterMap OutSubmessage.dataFragPayload).length
              = (cc.dataValue.length + dmss - 1) / dmss
          ∧ (msgs.flatten.filterMap OutSubmessage.dataFragPayload).flatten
              = cc.dataValue
          ∧ (∀ p ∈ (msgs.flatten.filterMap
                OutSubmessage.dataFragPayload).dropLast, p.length = dmss)
          ∧ msgs.flatten.countP OutSubmessage.isData = 0)
      ∧ (cc.dataValue.length ≤ dmss →
          msgs.flatten.countP OutSubmessage.isData = 1
          ∧ msgs.flatten.countP OutSubmessage.isDataFrag = 0)) := by
  have hkf : ∃ kf, keyFlagOfKind cc.kind = some kf := by
    cases h : cc.kind
    · exact ⟨false, rfl⟩
    · exact absurd h hkind
    · exact ⟨true, rfl⟩
    · exact ⟨true, rfl⟩
  obtain ⟨kf, hkf⟩ := hkf
  have hne : ¬ (dmss = 0) := by omega
  obtain ⟨hcover, hfrag_iff⟩ := fragCount_facts cc.dataValue.length dmss hd
  constructor
  · simp only [send_change_message_reader_proxy_reliable, hfind, if_pos hrel,
      if_neg hne]
    by_cases hbig : dmss < cc.dataValue.length
    · rw [if_pos (hfrag_iff.mpr hbig)]
      simp only [hkf]
      obtain ⟨q1, q2, q3, q4, _⟩ := dataFragMessages_props
        reader_proxy.remoteReaderGuid writerId dmss cc kf hd hbig
      exact ⟨_, _, rfl, fun _ => ⟨q1, q2, q3, q4⟩,
        fun hsmall => absurd hbig (by omega)⟩
    · rw [if_neg (fun h => hbig (hfrag_iff.mp h))]
      refine ⟨_, _, rfl, fun h => absurd h hbig, fun _ => ?_⟩
      cases hts : cc.sourceTimestamp <;>
        simp [OutSubmessage.isData, OutSubmessage.isDataFrag,
          CacheChange.as_data_submessage, infoTsOf, hts,
          HeartbeatMachine.generate_new_heartbeat, List.countP_cons]
  · simp only [send_message_to_reader_proxy_best_effort, hnext,
      if_neg hnogap, hfind, if_neg hne]
    by_cases hbig : dmss < cc.dataValue.length
    · rw [if_pos (hfrag_iff.mpr hbig)]
      simp only [hkf, hcont]
      obtain ⟨q1, q2, q3, q4, _⟩ := dataFragMessages_props
        be_proxy.remoteReaderGuid writerId dmss cc kf hd hbig
      exact ⟨_, rfl, fun _ => ⟨q1, q2, q3, q4⟩,
        fun hsmall => absurd hbig (by omega)⟩
    · rw [if_neg (fun h => hbig (hfrag_iff.mp h))]
      simp only [hcont]
      refine ⟨_, rfl, fun h => absurd h hbig, fun _ => ?_⟩
      cases hts : cc.sourceTimestamp <;>
        simp [OutSubmessage.isData, OutSubmessage.isDataFrag,
          CacheChange.as_data_submessage, infoTsOf, hts, List.countP_cons]

/-- C5 witness: a 5-byte payload with `dmss = 2` is sent as 3 DATAFRAG
submessages covering the payload on both the reliable and the best-effort
path. -/
theorem C5_fragmentation_witness :
    (∃ pr out,
      send_change_message_reader_proxy_reliable
        (RtpsReaderProxy.new ⟨1, 2⟩ 0 [] [] false true
          ReliabilityKind.Reliable 0)
        7 [⟨ChangeKind.Alive, ⟨3, 4⟩, 1, none, [10, 11, 12, 13, 14]⟩]
        none none 2 (1 : SequenceNumber) = some (pr, out)
      ∧ (out.flatten.filterMap OutSubmessage.dataFragPayload).length = 3
      ∧ (out.flatten.filterMap OutSubmessage.dataFragPayload).flatten
          = [10, 11, 12, 13, 14])
    ∧ (∃ bepr msgs,
      send_message_to_reader_proxy_best_effort 2
        (RtpsReaderProxy.new ⟨1, 2⟩ 0 [] [] false true
          ReliabilityKind.BestEffort 0)
        7 [⟨ChangeKind.Alive, ⟨3, 4⟩, 1, none, [10, 11, 12, 13, 14]⟩] 2
        = some (bepr, msgs)
      ∧ (msgs.flatten.filterMap OutSubmessage.dataFragPayload).length = 3
      ∧ (msgs.flatten.filterMap OutSubmessage.dataFragPayload).flatten
          = [10, 11, 12, 13, 14]) := by
  have h := C5_fragmentation
    (RtpsReaderProxy.new ⟨1, 2⟩ 0 [] [] false true
      ReliabilityKind.Reliable 0)
    7 [⟨ChangeKind.Alive, ⟨3, 4⟩, 1, none, [10, 11, 12, 13, 14]⟩]
    none none 2 ⟨ChangeKind.Alive, ⟨3, 4⟩, 1, none, [10, 11, 12, 13, 14]⟩ 1
    (RtpsReaderProxy.new ⟨1, 2⟩ 0 [] [] false true
      ReliabilityKind.BestEffort 0)
    ((RtpsReaderProxy.new ⟨1, 2⟩ 0 [] [] false true
      ReliabilityKind.BestEffort 0).set_highest_sent_seq_num 1)
    []
    (by decide) (by decide) (by decide) (by decide) (by decide) (by decide)
    (by decide)
  obtain ⟨⟨pr, out, heq, hbigr, _⟩, ⟨msgs, heqb, hbigb, _⟩⟩ := h
  have hlen : (2 : Nat) <
      ([10, 11, 12, 13, 14] : List Nat).length := by decide
  rw [List.append_nil] at heqb
  exact ⟨⟨pr, out, heq, (hbigr hlen).1, (hbigr hlen).2.1⟩,
    ⟨_, msgs, heqb, (hbigb hlen).1, (hbigb hlen).2.1⟩⟩

/-! ## Stateful reader (`dds/src/implementation/rtps/stateful_reader.rs`) -/

/-- A DATA submessage as seen by the reader: the fields used by
`on_data_submessage_received`. -/
structure DataSubmessage where
  writer_id : Nat
  writer_sn : SequenceNumber
  serialized_payload : List Nat
  deriving DecidableEq, Repr

/-- The per-message reception context (`MessageReceiver`): source guid
prefix and timestamps. -/
structure MessageReceiver where
  sourceGuidPre : Nat
  timestamp : Int
  receptionTimestamp : Int
  deriving DecidableEq, Repr

/-- The HEARTBEAT submessage fields used by
`on_heartbeat_submessage_received`. -/
structure HeartbeatSubmessage where
  final_flag : Bool
  liveliness_flag : Bool
  writer_id : Nat
  first_sn : SequenceNumber
  last_sn : SequenceNumber
  count : Nat
  deriving DecidableEq, Repr

/-- The list of integers `a..b` (inclusive). -/
def intRange (a b : Int) : List Int :=
  (List.range (b + 1 - a).toNat).map (fun (i : Nat) => a + (i : Int))

theorem mem_intRange (a b s : Int) : s ∈ intRange a b ↔ a ≤ s ∧ s ≤ b := by
  unfold intRange
  rw [List.mem_map]
  constructor
  · rintro ⟨i, hi, rfl⟩
    have := List.mem_range.mp hi
    omega
  · rintro ⟨h1, h2⟩
    exact ⟨(s - a).toNat, List.mem_range.mpr (by omega), by omega⟩

/-- Modelled from the spec: `RtpsWriterProxy` (`writer_proxy.rs` is not in
the sources).  Per matched writer the reader records the highest
contiguously received sequence number, the set of missing sequence numbers,
the last received heartbeat count and the must-send-acknacks flag; in this
model the received sequence numbers are exactly those up to
`highestReceivedSeqNum`. -/
structure RtpsWriterProxy where
  remoteWriterGuid : Guid
  highestReceivedSeqNum : SequenceNumber
  missingChanges : List SequenceNumber
  lastReceivedHeartbeatCount : Nat
  mustSendAcknacks : Bool
  deriving DecidableEq, Repr

/-- Modelled from the spec: `available_changes_max` is the highest
contiguously received sequence number. -/
def RtpsWriterProxy.available_changes_max (wp : RtpsWriterProxy) :
    SequenceNumber :=
  wp.highestReceivedSeqNum

/-- Modelled from the spec: `received_change_set` records the change as
received, advancing the highest received sequence number and removing the
number from the missing set. -/
def RtpsWriterProxy.received_change_set (wp : RtpsWriterProxy)
    (sn : SequenceNumber) : RtpsWriterProxy :=
  { wp with
    highestReceivedSeqNum := max wp.highestReceivedSeqNum sn,
    missingChanges := wp.missingChanges.erase sn }

/-- Modelled from the spec: `lost_changes_update(first_available)` marks
every unknown-or-missing change below `first_available` as lost, so the
proxy no longer waits for anything below it. -/
def RtpsWriterProxy.lost_changes_update (wp : RtpsWriterProxy)
    (firstAvailable : SequenceNumber) : RtpsWriterProxy :=
  { wp with
    highestReceivedSeqNum := max wp.highestReceivedSeqNum (firstAvailable - 1),
    missingChanges := wp.missingChanges.filter (fun m => !(m < firstAvailable)) }

/-- Modelled from the spec: `missing_changes` is the missing set. -/
def RtpsWriterProxy.missing_changes (wp : RtpsWriterProxy) :
    List SequenceNumber :=
  wp.missingChanges

/-- Modelled from the spec: `missing_changes_update(last_sn)` marks every
unknown change up to `last_sn` (those neither received nor already missing)
as missing. -/
def RtpsWriterProxy.missing_changes_update (wp : RtpsWriterProxy)
    (lastSn : SequenceNumber) : RtpsWriterProxy :=
  { wp with
    missingChanges := wp.missingChanges ++
      (intRange (wp.highestReceivedSeqNum + 1) lastSn).filter
        (fun s => !wp.missingChanges.contains s) }

/-- Modelled from the spec: records the heartbeat count. -/
def RtpsWriterProxy.set_last_received_heartbeat_count (wp : RtpsWriterProxy)
    (c : Nat) : RtpsWriterProxy :=
  { wp with lastReceivedHeartbeatCount := c }

/-- Modelled from the spec: records the must-send-acknacks flag. -/
def RtpsWriterProxy.set_must_send_acknacks (wp : RtpsWriterProxy)
    (b : Bool) : RtpsWriterProxy :=
  { wp with mustSendAcknacks := b }

/-- Modelled from the spec: a sample stored in the reader history cache. -/
structure ReaderCacheChange where
  writerGuid : Guid
  sequenceNumber : SequenceNumber
  dataValue : List Nat
  sourceTimestamp : Option Int
  receptionTimestamp : Int
  instanceHandle : Nat
  deriving DecidableEq, Repr

/-- Modelled from the spec: `RtpsReader` (`reader.rs` is not in the
sources): reliability QoS and the history cache of received samples. -/
structure RtpsReader where
  guid : Guid
  reliabilityKind : ReliabilityKind
  changes : List ReaderCacheChange
  deriving DecidableEq, Repr

/-- Modelled from the spec: `convert_data_to_cache_change` builds a cache
change from the submessage and reception context.  CDR validation failures
and the key-hash derivation of the instance handle are not modelled (the
handle is an opaque constant here). -/
def RtpsReader.convert_data_to_cache_change (_r : RtpsReader)
    (d : DataSubmessage) (sourceTimestamp : Option Int) (srcPre : Nat)
    (receptionTimestamp : Int) : ReaderCacheChange :=
  ⟨Guid.new srcPre d.writer_id, d.writer_sn, d.serialized_payload,
   sourceTimestamp, receptionTimestamp, 0⟩

/-- Modelled from the spec: `add_change` appends the sample to the reader
history cache and returns its instance handle; resource-limit rejection is
not modelled. -/
def RtpsReader.add_change (r : RtpsReader) (c : ReaderCacheChange) :
    RtpsReader × Nat :=
  ({ r with changes := r.changes ++ [c] }, c.instanceHandle)

/-- `StatefulReaderDataReceivedResult` (the variants reachable in this
model; `InvalidData` and `SampleRejected` arise only from the unmodelled
conversion/resource-limit failures). -/
inductive StatefulReaderDataReceivedResult where
  | NoMatchedWriterProxy
  | UnexpectedDataSequenceNumber
  | NewSampleAdded (instanceHandle : Nat)
  | NewSampleAddedAndSamplesLost (instanceHandle : Nat)
  deriving DecidableEq, Repr

/-- `RtpsStatefulReader`. -/
structure RtpsStatefulReader where
  reader : RtpsReader
  matched_writers : List RtpsWriterProxy
  deriving DecidableEq, Repr

/-- `RtpsStatefulReader::new`. -/
def RtpsStatefulReader.new (reader : RtpsReader) : RtpsStatefulReader :=
  ⟨reader, []⟩

/-- `RtpsStatefulReader::matched_writer_add`: pushes the proxy only when no
proxy with the same remote writer GUID is present. -/
def RtpsStatefulReader.matched_writer_add (r : RtpsStatefulReader)
    (a_writer_proxy : RtpsWriterProxy) : RtpsStatefulReader :=
  if r.matched_writers.any
      (fun x => x.remoteWriterGuid == a_writer_proxy.remoteWriterGuid) then
    r
  else
    { r with matched_writers := r.matched_writers ++ [a_writer_proxy] }

/-- `RtpsStatefulReader::matched_writer_remove`. -/
def RtpsStatefulReader.matched_writer_remove (r : RtpsStatefulReader)
    (a_writer_guid : Guid) : RtpsStatefulReader :=
  { r with matched_writers :=
      r.matched_writers.filter (fun x => x.remoteWriterGuid ≠ a_writer_guid) }

/-- Replace the first element satisfying `p` (the effect of mutating the
result of `iter_mut().find(..)`). -/
def updateFirst {α : Type} (p : α → Bool) (f : α → α) : List α → List α
  | [] => []
  | x :: xs => if p x then f x :: xs else x :: updateFirst p f xs

/-- `RtpsStatefulReader::on_data_submessage_received`.  The happy-path
conversion and cache insertion always succeed in this model (their failure
cases are not modelled), matching the source's `Ok` branches. -/
def RtpsStatefulReader.on_data_submessage_received (r : RtpsStatefulReader)
    (data_submessage : DataSubmessage) (message_receiver : MessageReceiver) :
    RtpsStatefulReader × StatefulReaderDataReceivedResult :=
  let sequence_number := data_submessage.writer_sn
  let writer_guid := Guid.new message_receiver.sourceGuidPre
    data_submessage.writer_id
  match r.matched_writers.find?
      (fun wp => wp.remoteWriterGuid == writer_guid) with
  | none => (r, StatefulReaderDataReceivedResult.NoMatchedWriterProxy)
  | some writer_proxy =>
    let expected_seq_num := writer_proxy.available_changes_max + 1
    match r.reader.reliabilityKind with
    | ReliabilityKind.BestEffort =>
      if expected_seq_num ≤ sequence_number then
        let change := r.reader.convert_data_to_cache_change data_submessage
          (some message_receiver.timestamp) message_receiver.sourceGuidPre
          message_receiver.receptionTimestamp
        let res := r.reader.add_change change
        let wp1 := writer_proxy.received_change_set sequence_number
        if expected_seq_num < sequence_number then
          ({ reader := res.1,
             matched_writers := updateFirst
               (fun wp => wp.remoteWriterGuid == writer_guid)
               (fun _ => wp1.lost_changes_update sequence_number)
               r.matched_writers },
           StatefulReaderDataReceivedResult.NewSampleAddedAndSamplesLost res.2)
        else
          ({ reader := res.1,
             matched_writers := updateFirst
               (fun wp => wp.remoteWriterGuid == writer_guid)
               (fun _ => wp1) r.matched_writers },
           StatefulReaderDataReceivedResult.NewSampleAdded res.2)
      else
        (r, StatefulReaderDataReceivedResult.UnexpectedDataSequenceNumber)
    | ReliabilityKind.Reliable =>
      if sequence_number = expected_seq_num then
        let change := r.reader.convert_data_to_cache_change data_submessage
          (some message_receiver.timestamp) message_receiver.sourceGuidPre
          message_receiver.receptionTimestamp
        let res := r.reader.add_change change
        ({ reader := res.1,
           matched_writers := updateFirst
             (fun wp => wp.remoteWriterGuid == writer_guid)
             (fun _ => writer_proxy.received_change_set
               data_submessage.writer_sn) r.matched_writers },
         StatefulReaderDataReceivedResult.NewSampleAdded res.2)
      else
        (r, StatefulReaderDataReceivedResult.UnexpectedDataSequenceNumber)

/-- The proxy-state update performed inside
`on_heartbeat_submessage_received` once the heartbeat count check has
passed (the body of the source's `if` on the count, factored out). -/
def heartbeatProxyUpdate (writer_proxy : RtpsWriterProxy)
    (heartbeat_submessage : HeartbeatSubmessage) : RtpsWriterProxy :=
  let wp1 := writer_proxy.set_last_received_heartbeat_count
    heartbeat_submessage.count
  let wp2 := wp1.set_must_send_acknacks
    (!heartbeat_submessage.final_flag
      || (!heartbeat_submessage.liveliness_flag
          && !wp1.missing_changes.isEmpty))
  let wp3 := if !heartbeat_submessage.final_flag then
      wp2.set_must_send_acknacks true
    else wp2
  let wp4 := wp3.missing_changes_update heartbeat_submessage.last_sn
  wp4.lost_changes_update heartbeat_submessage.first_sn

/-- `RtpsStatefulReader::on_heartbeat_submessage_received`. -/
def RtpsStatefulReader.on_heartbeat_submessage_received
    (r : RtpsStatefulReader) (heartbeat_submessage : HeartbeatSubmessage)
    (source_guid_pre : Nat) : RtpsStatefulReader :=
  if r.reader.reliabilityKind = ReliabilityKind.Reliable then
    let writer_guid := Guid.new source_guid_pre heartbeat_submessage.writer_id
    match r.matched_writers.find?
        (fun x => x.remoteWriterGuid == writer_guid) with
    | none => r
    | some writer_proxy =>
      if writer_proxy.lastReceivedHeartbeatCount < heartbeat_submessage.count
      then
        { r with matched_writers :=
            (updateFirst (fun x => x.remoteWriterGuid == writer_guid)
              (fun _ => heartbeatProxyUpdate writer_proxy heartbeat_submessage)
              r.matched_writers) }
      else r
  else r


/-! ## Theorems for C3 (first-relevant sample for late-joiners) -/

/-- A writer with three changes (sequence numbers 1, 2, 3) used in the C3
counterexample. -/
def c3Writer : RtpsStatefulWriter :=
  ⟨⟨10, 11⟩,
   [⟨ChangeKind.Alive, ⟨10, 11⟩, 1, none, [1]⟩,
    ⟨ChangeKind.Alive, ⟨10, 11⟩, 2, none, [2]⟩,
    ⟨ChangeKind.Alive, ⟨10, 11⟩, 3, none, [3]⟩],
   [], 200, 1344⟩

/-- A Volatile remote reader used in the C3 counterexample. -/
def c3VolatileReader : ReaderProxy :=
  ⟨⟨20, 21⟩, 0, [], [], false, ReliabilityKind.Reliable,
   DurabilityKind.Volatile⟩

/-- A TransientLocal remote reader used in the C3 counterexample. -/
def c3TransientReader : ReaderProxy :=
  ⟨⟨20, 22⟩, 0, [], [], false, ReliabilityKind.Reliable,
   DurabilityKind.TransientLocal⟩

/-- C3 counterexample: with changes 1..3 in the cache, the recorded
first-relevant-sample sequence number is 3 (the current maximum) for a
Volatile reader — not max+1 = 4 — and 0 for a TransientLocal reader — not 1
as claimed. -/
theorem C3_counterexample :
    ((c3Writer.add_matched_reader c3VolatileReader).matched_readers.map
        RtpsReaderProxy.firstRelevantSampleSeqNum) = [3]
    ∧ ((c3Writer.add_matched_reader c3TransientReader).matched_readers.map
        RtpsReaderProxy.firstRelevantSampleSeqNum) = [0]
    ∧ ((c3Writer.changes.map CacheChange.sequenceNumber).max?).getD 0 + 1 = 4
    ∧ (3 : SequenceNumber) ≠ 4 ∧ (0 : SequenceNumber) ≠ 1 := by
  refine ⟨rfl, rfl, rfl, by decide, by decide⟩

theorem le_max?_getD_of_mem (l : List Int) (x : Int) (h : x ∈ l) :
    x ≤ (l.max?).getD 0 := by
  rw [List.getD_max?_eq_unbot'_maximum]
  cases hm : l.maximum with
  | bot =>
    rw [List.maximum_eq_bot] at hm
    subst hm
    cases h
  | coe y =>
    have hx := List.le_maximum_of_mem' h
    rw [hm] at hx
    simpa using hx

/-- A change that is not relevant for the proxy (sequence number at most the
first-relevant bound) is answered by a single `INFO_DST + GAP` message. -/
theorem sendChange_gap (proxy : RtpsReaderProxy) (writerId : Nat)
    (changes : List CacheChange) (seqNumMin seqNumMax : Option SequenceNumber)
    (dmss : Nat) (sn : SequenceNumber)
    (h : ¬ proxy.firstRelevantSampleSeqNum < sn) :
    send_change_message_reader_proxy_reliable proxy writerId changes
      seqNumMin seqNumMax dmss sn
    = some (proxy,
        [[OutSubmessage.infoDst proxy.remoteReaderGuid.guidPre,
          OutSubmessage.gap ENTITYID_UNKNOWN writerId sn (sn + 1)]]) := by
  unfold send_change_message_reader_proxy_reliable
  cases hf : changes.find? (fun cc => cc.sequenceNumber == sn) with
  | none => rfl
  | some c => simp [if_neg h]

/-- A relevant change found in the cache is sent as DATA or DATAFRAG: the
emitted messages contain no GAP and at least one DATA/DATAFRAG. -/
theorem sendChange_sends_data (proxy : RtpsReaderProxy) (writerId : Nat)
    (changes : List CacheChange) (seqNumMin seqNumMax : Option SequenceNumber)
    (dmss : Nat) (sn : SequenceNumber) (cc : CacheChange)
    (hd : 0 < dmss)
    (hfind : changes.find? (fun c => c.sequenceNumber == sn) = some cc)
    (hrel : proxy.firstRelevantSampleSeqNum < sn)
    (hkind : cc.kind ≠ ChangeKind.AliveFiltered) :
    ∃ pr out,
      send_change_message_reader_proxy_reliable proxy writerId changes
        seqNumMin seqNumMax dmss sn = some (pr, out)
      ∧ out.flatten.countP OutSubmessage.isGap = 0
      ∧ 0 < out.flatten.countP (fun s => s.isData || s.isDataFrag) := by
  have hkf : ∃ kf, keyFlagOfKind cc.kind = some kf := by
    cases h : cc.kind
    · exact ⟨false, rfl⟩
    · exact absurd h hkind
    · exact ⟨true, rfl⟩
    · exact ⟨true, rfl⟩
  obtain ⟨kf, hkf⟩ := hkf
  have hne : ¬ (dmss = 0) := by omega
  simp only [send_change_message_reader_proxy_reliable, hfind, if_pos hrel,
    if_neg hne]
  by_cases hfrag : 1 < (cc.dataValue.length + dmss - 1) / dmss
  · rw [if_pos hfrag]
    simp only [hkf]
    refine ⟨_, _, rfl, ?_, ?_⟩
    · rw [List.countP_eq_zero]
      intro a ha
      obtain ⟨msg, hmsg, hamem⟩ := List.mem_flatten.mp ha
      unfold dataFragMessages at hmsg
      obtain ⟨i, _, hmi⟩ := List.mem_map.mp hmsg
      rw [← hmi] at hamem
      simp only [List.mem_cons, List.not_mem_nil, or_false] at hamem
      rcases hamem with rfl | rfl | rfl
      · simp [OutSubmessage.isGap]
      · cases hts : cc.sourceTimestamp <;>
          simp [infoTsOf, hts, OutSubmessage.isGap]
      · simp [OutSubmessage.isGap]
    · have h0 : 0 < (cc.dataValue.length + dmss - 1) / dmss := by omega
      have hmsg : [OutSubmessage.infoDst proxy.remoteReaderGuid.guidPre,
          infoTsOf cc,
          OutSubmessage.dataFrag proxy.remoteReaderGuid.entityId writerId
            cc.sequenceNumber (0 + 1) 1 dmss cc.dataValue.length kf
            (listSlice cc.dataValue (0 * dmss)
              (min ((0 + 1) * dmss) cc.dataValue.length))]
          ∈ dataFragMessages proxy.remoteReaderGuid writerId dmss cc kf := by
        unfold dataFragMessages
        exact List.mem_map.mpr ⟨0, List.mem_range.mpr h0, rfl⟩
      rw [List.countP_pos_iff]
      exact ⟨_, List.mem_flatten.mpr ⟨_, hmsg,
        List.mem_cons_of_mem _ (List.mem_cons_of_mem _
          (List.mem_cons_self _ _))⟩,
        by simp [OutSubmessage.isDataFrag]⟩
  · rw [if_neg hfrag]
    refine ⟨_, _, rfl, ?_, ?_⟩ <;>
      cases hts : cc.sourceTimestamp <;>
        simp [OutSubmessage.isGap, OutSubmessage.isData,
          OutSubmessage.isDataFrag, CacheChange.as_data_submessage, infoTsOf,
          hts, HeartbeatMachine.generate_new_heartbeat, List.countP_cons]

/-- C3 (amended): the first-relevant-sample sequence number recorded in the
new `ReaderProxy` is the writer's current *maximum* sequence number (0 when
the cache is empty) for a Volatile reader, and *0* for TransientLocal or
stronger — not max+1 and 1 as the claim states.  Because a change is sent as
DATA/DATAFRAG exactly when its sequence number is *strictly greater* than
this bound, the claimed consequence does hold: a TransientLocal late-joiner
is sent every change already in the writer's history (sequence numbers
≥ 1), while a Volatile late-joiner has every change present at match time
answered by a GAP and is sent exactly the changes added after the match. -/
theorem C3_amended (w : RtpsStatefulWriter) (rp : ReaderProxy)
    (proxy : RtpsReaderProxy) (seqNumMin seqNumMax : Option SequenceNumber)
    (hnew : w.matched_readers.any
      (fun q => q.remoteReaderGuid == rp.remote_reader_guid) = false)
    (hd : 0 < w.data_max_size_serialized)
    (hkinds : ∀ cc ∈ w.changes, cc.kind ≠ ChangeKind.AliveFiltered)
    (hproxy : proxy = RtpsReaderProxy.new rp.remote_reader_guid
      rp.remote_group_entity_id rp.unicast_locator_list
      rp.multicast_locator_list rp.expects_inline_qos true
      rp.reliability_kind
      (match rp.durability_kind with
       | DurabilityKind.Volatile =>
         ((w.changes.map CacheChange.sequenceNumber).max?).getD 0
       | DurabilityKind.TransientLocal | DurabilityKind.Transient
       | DurabilityKind.Persistent => 0)) :
    (w.add_matched_reader rp).matched_readers = w.matched_readers ++ [proxy]
    ∧ (rp.durability_kind ≠ DurabilityKind.Volatile →
        ∀ cc ∈ w.changes, 1 ≤ cc.sequenceNumber →
          ∃ pr out,
            send_change_message_reader_proxy_reliable proxy w.guid.entityId
              w.changes seqNumMin seqNumMax w.data_max_size_serialized
              cc.sequenceNumber = some (pr, out)
            ∧ out.flatten.countP OutSubmessage.isGap = 0
            ∧ 0 < out.flatten.countP (fun s => s.isData || s.isDataFrag))
    ∧ (rp.durability_kind = DurabilityKind.Volatile →
        (∀ cc ∈ w.changes,
          send_change_message_reader_proxy_reliable proxy w.guid.entityId
            w.changes seqNumMin seqNumMax w.data_max_size_serialized
            cc.sequenceNumber
          = some (proxy,
              [[OutSubmessage.infoDst proxy.remoteReaderGuid.guidPre,
                OutSubmessage.gap ENTITYID_UNKNOWN w.guid.entityId
                  cc.sequenceNumber (cc.sequenceNumber + 1)]]))
        ∧ (∀ cc' : CacheChange,
            ((w.changes.map CacheChange.sequenceNumber).max?).getD 0
              < cc'.sequenceNumber →
            cc'.kind ≠ ChangeKind.AliveFiltered →
            ∃ pr out,
              send_change_message_reader_proxy_reliable proxy w.guid.entityId
                (w.changes ++ [cc']) seqNumMin seqNumMax
                w.data_max_size_serialized cc'.sequenceNumber = some (pr, out)
              ∧ out.flatten.countP OutSubmessage.isGap = 0
              ∧ 0 < out.flatten.countP
                  (fun s => s.isData || s.isDataFrag))) := by
  have hfrsn : proxy.firstRelevantSampleSeqNum =
      (match rp.durability_kind with
       | DurabilityKind.Volatile =>
         ((w.changes.map CacheChange.sequenceNumber).max?).getD 0
       | DurabilityKind.TransientLocal | DurabilityKind.Transient
       | DurabilityKind.Persistent => 0) := by
    rw [hproxy]; rfl
  refine ⟨?_, ?_, ?_⟩
  · rw [hproxy]
    unfold RtpsStatefulWriter.add_matched_reader
    rw [hnew]
    rfl
  · intro hndur cc hmem hsn
    have hfr0 : proxy.firstRelevantSampleSeqNum = 0 := by
      rw [hfrsn]
      cases hdur : rp.durability_kind
      · exact absurd hdur hndur
      · rfl
      · rfl
      · rfl
    have hsome : (w.changes.find?
        (fun c => c.sequenceNumber == cc.sequenceNumber)).isSome :=
      List.find?_isSome.mpr ⟨cc, hmem, by simp⟩
    obtain ⟨c', hc'⟩ := Option.isSome_iff_exists.mp hsome
    have hcmem : c' ∈ w.changes := List.mem_of_find?_eq_some hc'
    have hceq : c'.sequenceNumber = cc.sequenceNumber := by
      have := List.find?_some hc'
      simpa using this
    exact sendChange_sends_data proxy w.guid.entityId w.changes seqNumMin
      seqNumMax w.data_max_size_serialized cc.sequenceNumber c' hd hc'
      (by rw [hfr0]; linarith) (hkinds c' hcmem)
  · intro hdur
    have hfrmax : proxy.firstRelevantSampleSeqNum =
        ((w.changes.map CacheChange.sequenceNumber).max?).getD 0 := by
      rw [hfrsn, hdur]
    constructor
    · intro cc hmem
      have hle : cc.sequenceNumber
          ≤ ((w.changes.map CacheChange.sequenceNumber).max?).getD 0 :=
        le_max?_getD_of_mem _ _ (List.mem_map.mpr ⟨cc, hmem, rfl⟩)
      exact sendChange_gap proxy w.guid.entityId w.changes seqNumMin
        seqNumMax w.data_max_size_serialized cc.sequenceNumber
        (by rw [hfrmax]; exact not_lt.mpr hle)
    · intro cc' hgt hkind
      have hnone : w.changes.find?
          (fun c => c.sequenceNumber == cc'.sequenceNumber) = none := by
        rw [List.find?_eq_none]
        intro x hx
        have hle : x.sequenceNumber
            ≤ ((w.changes.map CacheChange.sequenceNumber).max?).getD 0 :=
          le_max?_getD_of_mem _ _ (List.mem_map.mpr ⟨x, hx, rfl⟩)
        simp only [beq_iff_eq]
        intro heq
        rw [heq] at hle
        exact absurd hgt (not_lt.mpr hle)
      have hfind : (w.changes ++ [cc']).find?
          (fun c => c.sequenceNumber == cc'.sequenceNumber) = some cc' := by
        rw [List.find?_append, hnone]
        simp
      exact sendChange_sends_data proxy w.guid.entityId (w.changes ++ [cc'])
        seqNumMin seqNumMax w.data_max_size_serialized cc'.sequenceNumber cc'
        hd hfind (by rw [hfrmax]; exact hgt) hkind

/-- C3 witness: the amended theorem applied to `c3Writer` and the
TransientLocal reader; change 1 is sent as data. -/
theorem C3_amended_witness :
    ∃ pr out,
      send_change_message_reader_proxy_reliable
        (RtpsReaderProxy.new ⟨20, 22⟩ 0 [] [] false true
          ReliabilityKind.Reliable 0)
        11 c3Writer.changes none none 1344 (1 : SequenceNumber)
        = some (pr, out)
      ∧ out.flatten.countP OutSubmessage.isGap = 0
      ∧ 0 < out.flatten.countP (fun s => s.isData || s.isDataFrag) := by
  have h := C3_amended c3Writer c3TransientReader
    (RtpsReaderProxy.new ⟨20, 22⟩ 0 [] [] false true
      ReliabilityKind.Reliable 0)
    none none rfl (by decide) (by decide) rfl
  have h2 := h.2.1 (by decide) ⟨ChangeKind.Alive, ⟨10, 11⟩, 1, none, [1]⟩
    (by decide) (by decide)
  simpa using h2


/-! ## Theorems for C4 (heartbeat processing) -/

/-- A reliable reader with one matched writer proxy that is missing
sequence number 3, used in the C4 counterexample. -/
def c4Reader : RtpsStatefulReader :=
  ⟨⟨⟨1, 2⟩, ReliabilityKind.Reliable, []⟩, [⟨⟨5, 6⟩, 0, [3], 0, false⟩]⟩

/-- A heartbeat with both the final and the liveliness flag set, used in
the C4 counterexample. -/
def c4Heartbeat : HeartbeatSubmessage := ⟨true, true, 6, 1, 5, 1⟩

/-- C4 counterexample: on a heartbeat with the final *and* liveliness flags
set, the source computes `must_send_acknacks = !final || (!liveliness &&
missing ≠ ∅)`, so the flag ends up `false` even though the missing set is
nonempty — the claim (`must_send_acknacks ⟺ ¬final ∨ missing ≠ ∅`) would
require `true`. -/
theorem C4_counterexample :
    ((c4Reader.on_heartbeat_submessage_received c4Heartbeat 5).matched_writers.map
        RtpsWriterProxy.mustSendAcknacks) = [false]
    ∧ ((c4Reader.on_heartbeat_submessage_received c4Heartbeat 5).matched_writers.map
        (fun wp => wp.missingChanges.isEmpty)) = [false]
    ∧ c4Heartbeat.final_flag = true := by
  refine ⟨by decide, by decide, rfl⟩

/-- The missing set produced by `heartbeatProxyUpdate`. -/
theorem heartbeatProxyUpdate_missing (wp : RtpsWriterProxy)
    (hb : HeartbeatSubmessage) :
    (heartbeatProxyUpdate wp hb).missingChanges
      = (wp.missingChanges
          ++ (intRange (wp.highestReceivedSeqNum + 1) hb.last_sn).filter
              (fun s => !wp.missingChanges.contains s)).filter
          (fun m => !(m < hb.first_sn)) := by
  unfold heartbeatProxyUpdate
  cases hb.final_flag <;> rfl

/-- The must-send-acknacks flag produced by `heartbeatProxyUpdate`. -/
theorem heartbeatProxyUpdate_must (wp : RtpsWriterProxy)
    (hb : HeartbeatSubmessage) :
    (heartbeatProxyUpdate wp hb).mustSendAcknacks
      = (!hb.final_flag
         || (!hb.liveliness_flag && !wp.missingChanges.isEmpty)) := by
  unfold heartbeatProxyUpdate
  cases hb.final_flag <;> rfl

/-- The heartbeat count recorded by `heartbeatProxyUpdate`. -/
theorem heartbeatProxyUpdate_count (wp : RtpsWriterProxy)
    (hb : HeartbeatSubmessage) :
    (heartbeatProxyUpdate wp hb).lastReceivedHeartbeatCount = hb.count := by
  unfold heartbeatProxyUpdate
  cases hb.final_flag <;> rfl

/-- C4 (amended): on a HEARTBEAT for a matched writer, a Reliable stateful
reader updates the proxy only when the heartbeat count is strictly greater
than the last received count (otherwise nothing changes).  On an update the
missing set becomes `[first_sn .. last_sn]` minus the received sequence
numbers (those up to the highest contiguously received one), provided the
proxy's previous missing set only held unreceived numbers not beyond
`last_sn`; and `must_send_acknacks` is set exactly when the final flag is
not set, **or** the liveliness flag is not set and the missing set *as it
was before the update* is nonempty. -/
theorem C4_amended (r : RtpsStatefulReader) (hb : HeartbeatSubmessage)
    (srcPre : Nat) (wp : RtpsWriterProxy)
    (hrel : r.reader.reliabilityKind = ReliabilityKind.Reliable)
    (hfind : r.matched_writers.find?
      (fun x => x.remoteWriterGuid == Guid.new srcPre hb.writer_id) = some wp)
    (hinv : ∀ m ∈ wp.missingChanges,
      wp.highestReceivedSeqNum < m ∧ m ≤ hb.last_sn) :
    (wp.lastReceivedHeartbeatCount < hb.count →
      r.on_heartbeat_submessage_received hb srcPre
          = { r with matched_writers :=
              (updateFirst
                (fun x => x.remoteWriterGuid == Guid.new srcPre hb.writer_id)
                (fun _ => heartbeatProxyUpdate wp hb) r.matched_writers) }
        ∧ (heartbeatProxyUpdate wp hb).lastReceivedHeartbeatCount = hb.count
        ∧ (heartbeatProxyUpdate wp hb).mustSendAcknacks
            = (!hb.final_flag
               || (!hb.liveliness_flag && !wp.missingChanges.isEmpty))
        ∧ (∀ s : SequenceNumber,
            s ∈ (heartbeatProxyUpdate wp hb).missingChanges ↔
              (hb.first_sn ≤ s ∧ s ≤ hb.last_sn
                ∧ wp.highestReceivedSeqNum < s)))
    ∧ (¬ wp.lastReceivedHeartbeatCount < hb.count →
        r.on_heartbeat_submessage_received hb srcPre = r) := by
  constructor
  · intro hcnt
    refine ⟨?_, heartbeatProxyUpdate_count wp hb,
      heartbeatProxyUpdate_must wp hb, ?_⟩
    · unfold RtpsStatefulReader.on_heartbeat_submessage_received
      simp only [hrel, if_true, hfind, if_pos hcnt]
    · intro s
      rw [heartbeatProxyUpdate_missing]
      simp only [List.mem_filter, List.mem_append, mem_intRange]
      simp only [Bool.not_eq_true', decide_eq_false_iff_not, not_lt,
        List.contains, List.elem_eq_mem, decide_eq_true_eq]
      constructor
      · rintro ⟨hA | ⟨⟨hr1, hr2⟩, _⟩, hge⟩
        · obtain ⟨h1, h2⟩ := hinv s hA
          refine ⟨?_, h2, h1⟩
          simpa using hge
        · exact ⟨by simpa using hge, hr2, by linarith⟩
      · rintro ⟨h1, h2, h3⟩
        refine ⟨?_, by simpa using not_lt.mpr h1⟩
        by_cases hm : s ∈ wp.missingChanges
        · exact Or.inl hm
        · exact Or.inr ⟨⟨by linarith, h2⟩, by simpa using hm⟩
  · intro hncnt
    unfold RtpsStatefulReader.on_heartbeat_submessage_received
    simp only [hrel, if_true, hfind, if_neg hncnt]

/-- C4 witness: the amended theorem applied to a concrete reliable reader
(one proxy, nothing received, missing {3}) and a non-final heartbeat
announcing `[1..5]` with count 1. -/
theorem C4_amended_witness :
    (RtpsStatefulReader.on_heartbeat_submessage_received
        ⟨⟨⟨1, 2⟩, ReliabilityKind.Reliable, []⟩, [⟨⟨5, 6⟩, 0, [3], 0, false⟩]⟩
        ⟨false, false, 6, 1, 5, 1⟩ 5).matched_writers
      = [heartbeatProxyUpdate ⟨⟨5, 6⟩, 0, [3], 0, false⟩
          ⟨false, false, 6, 1, 5, 1⟩]
    ∧ ∀ s : SequenceNumber,
        s ∈ (heartbeatProxyUpdate ⟨⟨5, 6⟩, 0, [3], 0, false⟩
          ⟨false, false, 6, 1, 5, 1⟩).missingChanges ↔
          ((1 : Int) ≤ s ∧ s ≤ 5 ∧ (0 : Int) < s) := by
  have h := C4_amended
    ⟨⟨⟨1, 2⟩, ReliabilityKind.Reliable, []⟩, [⟨⟨5, 6⟩, 0, [3], 0, false⟩]⟩
    ⟨false, false, 6, 1, 5, 1⟩ 5 ⟨⟨5, 6⟩, 0, [3], 0, false⟩
    rfl (by decide) (by decide)
  obtain ⟨h1, h2, h3, h4⟩ := h.1 (by decide)
  have h1' := congrArg RtpsStatefulReader.matched_writers h1
  refine ⟨?_, h4⟩
  simpa [updateFirst] using h1'

/-! ## Theorems for C2 (DATA reception at a stateful reader) -/

/-- A Reliable stateful reader with one matched writer proxy (nothing
received yet), used in the C2 counterexample. -/
def c2Reader : RtpsStatefulReader :=
  ⟨⟨⟨1, 2⟩, ReliabilityKind.Reliable, []⟩, [⟨⟨5, 6⟩, 0, [], 0, false⟩]⟩

/-- A DATA submessage with sequence number 5 (expected is 1), used in the
C2 counterexample. -/
def c2Data : DataSubmessage := ⟨6, 5, [42]⟩

/-- The reception context for the C2 counterexample. -/
def c2Receiver : MessageReceiver := ⟨5, 0, 0⟩

/-- C2 counterexample: a Reliable reader receiving a DATA whose sequence
number (5) differs from the expected one (1) returns
`UnexpectedDataSequenceNumber` and leaves the *entire* reader state
unchanged — the sample is discarded, not buffered anywhere. -/
theorem C2_counterexample :
    c2Reader.on_data_submessage_received c2Data c2Receiver
      = (c2Reader,
         StatefulReaderDataReceivedResult.UnexpectedDataSequenceNumber)
    ∧ c2Data.writer_sn ≠ (0 : Int) + 1 := by
  exact ⟨by decide, by decide⟩

/-- C2 (amended): with `expected = highest contiguously available + 1`:
under BestEffort the reader accepts any sequence number ≥ expected, adds
the converted sample to its cache, records the sequence number as received
(the proxy's highest received number becomes it), leaves no intermediate
number pending, and reports `NewSampleAddedAndSamplesLost` exactly when
numbers were skipped; smaller sequence numbers are rejected unchanged.
Under Reliable the reader adds the sample to its cache only when the
sequence number equals expected; a sample with any other sequence number is
*discarded* — the reader returns `UnexpectedDataSequenceNumber` with its
state completely unchanged (no buffering; recovery relies on
HEARTBEAT-driven acknacks). -/
theorem C2_amended (r : RtpsStatefulReader) (d : DataSubmessage)
    (mr : MessageReceiver) (wp : RtpsWriterProxy)
    (hfind : r.matched_writers.find?
      (fun x => x.remoteWriterGuid == Guid.new mr.sourceGuidPre d.writer_id)
      = some wp) :
    (r.reader.reliabilityKind = ReliabilityKind.BestEffort →
      (wp.available_changes_max + 1 ≤ d.writer_sn →
        r.on_data_submessage_received d mr
          = ({ reader := { r.reader with changes := r.reader.changes ++
                [r.reader.convert_data_to_cache_change d (some mr.timestamp)
                  mr.sourceGuidPre mr.receptionTimestamp] },
               matched_writers := (updateFirst
                 (fun x => x.remoteWriterGuid ==
                   Guid.new mr.sourceGuidPre d.writer_id)
                 (fun _ =>
                   if wp.available_changes_max + 1 < d.writer_sn then
                     (wp.received_change_set d.writer_sn).lost_changes_update
                       d.writer_sn
                   else wp.received_change_set d.writer_sn)
                 r.matched_writers) },
             if wp.available_changes_max + 1 < d.writer_sn then
               StatefulReaderDataReceivedResult.NewSampleAddedAndSamplesLost
                 (r.reader.convert_data_to_cache_change d (some mr.timestamp)
                   mr.sourceGuidPre mr.receptionTimestamp).instanceHandle
             else
               StatefulReaderDataReceivedResult.NewSampleAdded
                 (r.reader.convert_data_to_cache_change d (some mr.timestamp)
                   mr.sourceGuidPre mr.receptionTimestamp).instanceHandle)
        ∧ (if wp.available_changes_max + 1 < d.writer_sn then
              (wp.received_change_set d.writer_sn).lost_changes_update
                d.writer_sn
            else wp.received_change_set d.writer_sn).highestReceivedSeqNum
            = d.writer_sn
        ∧ (∀ m ∈ ((wp.received_change_set d.writer_sn).lost_changes_update
              d.writer_sn).missingChanges, ¬ m < d.writer_sn))
      ∧ (d.writer_sn < wp.available_changes_max + 1 →
          r.on_data_submessage_received d mr
            = (r,
               StatefulReaderDataReceivedResult.UnexpectedDataSequenceNumber)))
    ∧ (r.reader.reliabilityKind = ReliabilityKind.Reliable →
        (d.writer_sn = wp.available_changes_max + 1 →
          r.on_data_submessage_received d mr
            = ({ reader := { r.reader with changes := r.reader.changes ++
                  [r.reader.convert_data_to_cache_change d (some mr.timestamp)
                    mr.sourceGuidPre mr.receptionTimestamp] },
                 matched_writers := (updateFirst
                   (fun x => x.remoteWriterGuid ==
                     Guid.new mr.sourceGuidPre d.writer_id)
                   (fun _ => wp.received_change_set d.writer_sn)
                   r.matched_writers) },
               StatefulReaderDataReceivedResult.NewSampleAdded
                 (r.reader.convert_data_to_cache_change d (some mr.timestamp)
                   mr.sourceGuidPre mr.receptionTimestamp).instanceHandle)
          ∧ (wp.received_change_set d.writer_sn).highestReceivedSeqNum
              = d.writer_sn)
        ∧ (d.writer_sn ≠ wp.available_changes_max + 1 →
            r.on_data_submessage_received d mr
              = (r,
                 StatefulReaderDataReceivedResult.UnexpectedDataSequenceNumber))) := by
  constructor
  · intro hbe
    constructor
    · intro hle
      refine ⟨?_, ?_, ?_⟩
      · unfold RtpsStatefulReader.on_data_submessage_received
        simp only [hfind, hbe, if_pos hle, RtpsReader.add_change]
        by_cases hlt : wp.available_changes_max + 1 < d.writer_sn
        · simp only [if_pos hlt]
        · simp only [if_neg hlt]
      · simp only [RtpsWriterProxy.available_changes_max] at hle
        split_ifs with hlt
        · show max (max wp.highestReceivedSeqNum d.writer_sn)
            (d.writer_sn - 1) = d.writer_sn
          rw [max_eq_right (by linarith :
            wp.highestReceivedSeqNum ≤ d.writer_sn)]
          exact max_eq_left (by linarith)
        · show max wp.highestReceivedSeqNum d.writer_sn = d.writer_sn
          exact max_eq_right (by linarith)
      · intro m hm
        simp only [RtpsWriterProxy.lost_changes_update,
          RtpsWriterProxy.received_change_set, List.mem_filter,
          Bool.not_eq_true', decide_eq_false_iff_not] at hm
        exact hm.2
    · intro hgt
      unfold RtpsStatefulReader.on_data_submessage_received
      simp only [hfind, hbe, if_neg (by linarith : ¬ wp.available_changes_max
        + 1 ≤ d.writer_sn)]
  · intro hrel
    constructor
    · intro heq
      refine ⟨?_, ?_⟩
      · unfold RtpsStatefulReader.on_data_submessage_received
        simp only [hfind, hrel, if_pos heq, RtpsReader.add_change]
      · simp only [RtpsWriterProxy.available_changes_max] at heq
        show max wp.highestReceivedSeqNum d.writer_sn = d.writer_sn
        exact max_eq_right (by linarith)
    · intro hne
      unfold RtpsStatefulReader.on_data_submessage_received
      simp only [hfind, hrel, if_neg hne]

/-- C2 witness: a Reliable reader receiving the expected sequence number 1
adds the sample to its cache. -/
theorem C2_amended_witness :
    (RtpsStatefulReader.on_data_submessage_received c2Reader ⟨6, 1, [42]⟩
        c2Receiver).1.reader.changes
      = [⟨⟨5, 6⟩, 1, [42], some 0, 0, 0⟩] := by
  have h := C2_amended c2Reader ⟨6, 1, [42]⟩ c2Receiver
    ⟨⟨5, 6⟩, 0, [], 0, false⟩ (by decide)
  have h2 := (h.2 rfl).1 (by decide)
  rw [congrArg (fun x => x.1.reader.changes) h2.1]
  rfl

/-! ## Theorems for C10 (matched-proxy idempotence and uniqueness) -/

/-- An operation on a stateful reader's matched-writer list. -/
inductive ReaderMatchOp where
  | add (wp : RtpsWriterProxy)
  | remove (g : Guid)

/-- Apply one matched-writer operation. -/
def applyReaderMatchOp (r : RtpsStatefulReader) :
    ReaderMatchOp → RtpsStatefulReader
  | ReaderMatchOp.add wp => r.matched_writer_add wp
  | ReaderMatchOp.remove g => r.matched_writer_remove g

/-- Apply a sequence of matched-writer operations. -/
def applyReaderMatchOps (r : RtpsStatefulReader)
    (ops : List ReaderMatchOp) : RtpsStatefulReader :=
  ops.foldl applyReaderMatchOp r

/-- An operation on a stateful writer's matched-reader list. -/
inductive WriterMatchOp where
  | add (rp : ReaderProxy)
  | remove (g : Guid)

/-- Apply one matched-reader operation. -/
def applyWriterMatchOp (w : RtpsStatefulWriter) :
    WriterMatchOp → RtpsStatefulWriter
  | WriterMatchOp.add rp => w.add_matched_reader rp
  | WriterMatchOp.remove g => w.delete_matched_reader g

/-- Apply a sequence of matched-reader operations. -/
def applyWriterMatchOps (w : RtpsStatefulWriter)
    (ops : List WriterMatchOp) : RtpsStatefulWriter :=
  ops.foldl applyWriterMatchOp w

/-- One matched-writer operation preserves distinctness of the remote
writer GUIDs. -/
theorem applyReaderMatchOp_nodup (r : RtpsStatefulReader)
    (op : ReaderMatchOp)
    (h : (r.matched_writers.map RtpsWriterProxy.remoteWriterGuid).Nodup) :
    (((applyReaderMatchOp r op).matched_writers).map
      RtpsWriterProxy.remoteWriterGuid).Nodup := by
  cases op with
  | add wp =>
    show (((r.matched_writer_add wp).matched_writers).map _).Nodup
    unfold RtpsStatefulReader.matched_writer_add
    split_ifs with hany
    · exact h
    · simp only [List.map_append, List.map_cons, List.map_nil]
      rw [List.nodup_append]
      refine ⟨h, List.nodup_singleton _, ?_⟩
      intro g hg hg'
      simp only [List.mem_singleton] at hg'
      obtain ⟨x, hx, hxg⟩ := List.mem_map.mp hg
      rw [List.any_eq_true] at hany
      exact hany ⟨x, hx, by simp [hxg, hg']⟩
  | remove g =>
    show (((r.matched_writer_remove g).matched_writers).map _).Nodup
    unfold RtpsStatefulReader.matched_writer_remove
    exact h.sublist ((List.filter_sublist _).map _)

/-- One matched-reader operation preserves distinctness of the remote
reader GUIDs. -/
theorem applyWriterMatchOp_nodup (w : RtpsStatefulWriter)
    (op : WriterMatchOp)
    (h : (w.matched_readers.map RtpsReaderProxy.remoteReaderGuid).Nodup) :
    (((applyWriterMatchOp w op).matched_readers).map
      RtpsReaderProxy.remoteReaderGuid).Nodup := by
  cases op with
  | add rp =>
    show (((w.add_matched_reader rp).matched_readers).map _).Nodup
    unfold RtpsStatefulWriter.add_matched_reader
    split_ifs with hany
    · exact h
    · simp only [List.map_append, List.map_cons, List.map_nil]
      rw [List.nodup_append]
      refine ⟨h, List.nodup_singleton _, ?_⟩
      intro g hg hg'
      simp only [List.mem_singleton] at hg'
      obtain ⟨x, hx, hxg⟩ := List.mem_map.mp hg
      rw [List.any_eq_true] at hany
      refine hany ⟨x, hx, ?_⟩
      simp only [RtpsReaderProxy.new] at hg'
      simp [hxg, hg']
  | remove g =>
    show (((w.delete_matched_reader g).matched_readers).map _).Nodup
    unfold RtpsStatefulWriter.delete_matched_reader
    exact h.sublist ((List.filter_sublist _).map _)

theorem applyReaderMatchOps_nodup (ops : List ReaderMatchOp) :
    ∀ r : RtpsStatefulReader,
    (r.matched_writers.map RtpsWriterProxy.remoteWriterGuid).Nodup →
    (((applyReaderMatchOps r ops).matched_writers).map
      RtpsWriterProxy.remoteWriterGuid).Nodup := by
  induction ops with
  | nil => exact fun r h => h
  | cons op ops ih =>
    intro r h
    exact ih (applyReaderMatchOp r op) (applyReaderMatchOp_nodup r op h)

theorem applyWriterMatchOps_nodup (ops : List WriterMatchOp) :
    ∀ w : RtpsStatefulWriter,
    (w.matched_readers.map RtpsReaderProxy.remoteReaderGuid).Nodup →
    (((applyWriterMatchOps w ops).matched_readers).map
      RtpsReaderProxy.remoteReaderGuid).Nodup := by
  induction ops with
  | nil => exact fun w h => h
  | cons op ops ih =>
    intro w h
    exact ih (applyWriterMatchOp w op) (applyWriterMatchOp_nodup w op h)

/-- C10: adding a matched remote endpoint is idempotent per remote GUID —
`matched_writer_add` on a stateful reader and `add_matched_reader` on a
stateful writer leave the state unchanged when a proxy with the same remote
GUID is already present — and after any sequence of add/remove operations
starting from a freshly created endpoint the proxy list holds pairwise
distinct remote GUIDs (at most one proxy per remote GUID). -/
theorem C10_matched_proxy_uniqueness (r : RtpsStatefulReader)
    (wp : RtpsWriterProxy) (w : RtpsStatefulWriter) (rp : ReaderProxy)
    (reader0 : RtpsReader) (g0 : Guid) (dmss : Nat)
    (ops : List ReaderMatchOp) (wops : List WriterMatchOp)
    (hr : wp.remoteWriterGuid ∈
      r.matched_writers.map RtpsWriterProxy.remoteWriterGuid)
    (hw : rp.remote_reader_guid ∈
      w.matched_readers.map RtpsReaderProxy.remoteReaderGuid) :
    r.matched_writer_add wp = r
    ∧ w.add_matched_reader rp = w
    ∧ (((applyReaderMatchOps (RtpsStatefulReader.new reader0)
          ops).matched_writers).map RtpsWriterProxy.remoteWriterGuid).Nodup
    ∧ (((applyWriterMatchOps (RtpsStatefulWriter.new g0 dmss)
          wops).matched_readers).map RtpsReaderProxy.remoteReaderGuid).Nodup := by
  refine ⟨?_, ?_, ?_, ?_⟩
  · unfold RtpsStatefulReader.matched_writer_add
    obtain ⟨x, hx, hxg⟩ := List.mem_map.mp hr
    rw [if_pos (List.any_eq_true.mpr ⟨x, hx, by simp [hxg]⟩)]
  · unfold RtpsStatefulWriter.add_matched_reader
    obtain ⟨x, hx, hxg⟩ := List.mem_map.mp hw
    rw [if_pos (List.any_eq_true.mpr ⟨x, hx, by simp [hxg]⟩)]
  · exact applyReaderMatchOps_nodup ops _ (by simp [RtpsStatefulReader.new])
  · exact applyWriterMatchOps_nodup wops _ (by simp [RtpsStatefulWriter.new])

/-- C10 witness: the theorem applied to endpoints that each already hold a
proxy for the remote GUID being re-added. -/
theorem C10_matched_proxy_uniqueness_witness :
    RtpsStatefulReader.matched_writer_add
        ⟨⟨⟨1, 2⟩, ReliabilityKind.Reliable, []⟩, [⟨⟨5, 6⟩, 0, [], 0, false⟩]⟩
        ⟨⟨5, 6⟩, 7, [8], 1, true⟩
      = ⟨⟨⟨1, 2⟩, ReliabilityKind.Reliable, []⟩,
         [⟨⟨5, 6⟩, 0, [], 0, false⟩]⟩ := by
  have h := C10_matched_proxy_uniqueness
    ⟨⟨⟨1, 2⟩, ReliabilityKind.Reliable, []⟩, [⟨⟨5, 6⟩, 0, [], 0, false⟩]⟩
    ⟨⟨5, 6⟩, 7, [8], 1, true⟩
    ⟨⟨1, 2⟩, [], [RtpsReaderProxy.new ⟨9, 9⟩ 0 [] [] false true
      ReliabilityKind.Reliable 0], 200, 1344⟩
    ⟨⟨9, 9⟩, 0, [], [], false, ReliabilityKind.Reliable,
      DurabilityKind.Volatile⟩
    ⟨⟨1, 2⟩, ReliabilityKind.Reliable, []⟩ ⟨1, 2⟩ 1344 [] []
    (by decide) (by decide)
  exact h.1

/-! ## Partition matching (`publisher_actor.rs::is_partition_matched`) -/

/-- Modelled from the spec: POSIX glob matching.  The source translates
each partition name with the external `fnmatch_regex::glob_to_regex` and
matches with the `regex` crate; both are external collaborators, so glob
semantics (`*`, `?`, literal characters) are modelled directly, and the
translation is total (failures on malformed patterns are not modelled). -/
def globMatch : List Char → List Char → Bool
  | [], [] => true
  | '*' :: ps, [] => globMatch ps []
  | _ :: _, [] => false
  | [], _ :: _ => false
  | p :: ps, c :: cs =>
    if p = '*' then globMatch ps (c :: cs) || globMatch (p :: ps) cs
    else if p = '?' then globMatch ps cs
    else p == c && globMatch ps cs
  termination_by ps ts => ps.length + ts.length

/-- `PublisherActor::is_partition_matched`, with `localPartition` standing
for `self.qos.partition.name` and `discoveredPartition` for the discovered
endpoint's partition names (each name a character list). -/
def is_partition_matched (localPartition : List (List Char))
    (discoveredPartition : List (List Char)) : Bool :=
  let is_any_name_matched :=
    discoveredPartition.any (fun n => localPartition.contains n)
  let is_any_received_regex_matched_with_partition_qos :=
    discoveredPartition.any (fun n => localPartition.any
      (fun m => globMatch n m))
  let is_any_local_regex_matched_with_received_partition_qos :=
    localPartition.any (fun n => discoveredPartition.any
      (fun m => globMatch n m))
  (discoveredPartition == localPartition)
    || is_any_name_matched
    || is_any_received_regex_matched_with_partition_qos
    || is_any_local_regex_matched_with_received_partition_qos

/-- C8's matching rule, stated from the claim's words: some literal name in
both lists, or some glob of one side matching some name of the other, or
both lists empty. -/
def partitionMatchedSpec (l d : List (List Char)) : Bool :=
  (l.isEmpty && d.isEmpty)
    || d.any (fun n => l.contains n)
    || d.any (fun g => l.any (fun n => globMatch g n))
    || l.any (fun g => d.any (fun n => globMatch g n))

/-- C8: the partition lists of two endpoints match exactly when some
literal name appears in both, or some glob pattern of one side matches some
name of the other, or both lists are empty — the source's extra
whole-list-equality disjunct adds nothing beyond the empty-empty case. -/
theorem C8_partition_matching (l d : List (List Char)) :
    is_partition_matched l d = partitionMatchedSpec l d := by
  unfold is_partition_matched partitionMatchedSpec
  by_cases heq : d = l
  · subst heq
    cases d with
    | nil => rfl
    | cons x xs =>
      have h1 : (x :: xs).any (fun n => (x :: xs).contains n) = true :=
        List.any_eq_true.mpr ⟨x, List.mem_cons_self _ _, by simp⟩
      simp [h1]
  · have hbeq : (d == l) = false := by
      simp only [beq_eq_false_iff_ne, ne_eq]
      exact heq
    have hne : (l.isEmpty && d.isEmpty) = false := by
      cases l <;> cases d <;> simp_all
    rw [hbeq, hne]

/-! ## RTPS message parsing
(`rtps_udp_psm/mapping_rtps_messages/overall_structure.rs`) -/

/-- The supported submessage ids (`submessage_header.rs` constants). -/
def PAD : Nat := 0x01
/-- ACKNACK submessage id. -/
def ACKNACK : Nat := 0x06
/-- HEARTBEAT submessage id. -/
def HEARTBEAT : Nat := 0x07
/-- GAP submessage id. -/
def GAP : Nat := 0x08
/-- INFO_TS submessage id. -/
def INFO_TS : Nat := 0x09
/-- INFO_SRC submessage id. -/
def INFO_SRC : Nat := 0x0c
/-- INFO_DST submessage id. -/
def INFO_DST : Nat := 0x0e
/-- INFO_REPLY submessage id. -/
def INFO_REPLY : Nat := 0x0f
/-- NACK_FRAG submessage id. -/
def NACK_FRAG : Nat := 0x12
/-- HEARTBEAT_FRAG submessage id. -/
def HEARTBEAT_FRAG : Nat := 0x13
/-- DATA submessage id. -/
def DATA : Nat := 0x15
/-- DATA_FRAG submessage id. -/
def DATA_FRAG : Nat := 0x16

/-- The ids handled by the arms of the parser's `match submessage_id`. -/
def knownSubmessageIds : List Nat :=
  [ACKNACK, DATA, DATA_FRAG, GAP, HEARTBEAT, HEARTBEAT_FRAG, INFO_DST,
   INFO_REPLY, INFO_SRC, INFO_TS, NACK_FRAG, PAD]

/-- `RtpsSubmessageHeader`: 1-byte id, 1-byte flags, 2-byte length. -/
structure RtpsSubmessageHeader where
  submessageId : Nat
  flags : Nat
  submessageLength : Nat
  deriving DecidableEq, Repr

/-- Modelled from the spec: the submessage-header decode
(`submessage_header.rs` is not in the sources).  Reads id and flags bytes,
then the 2-byte length little-endian when flags bit 0 (the endianness bit)
is set and big-endian otherwise; fails on fewer than 4 bytes. -/
def readSubmessageHeader :
    List Nat → Option (RtpsSubmessageHeader × List Nat)
  | id :: fl :: l0 :: l1 :: rest =>
    some (⟨id, fl, if fl % 2 = 1 then l0 + 256 * l1 else l1 + 256 * l0⟩,
      rest)
  | _ => none

/-- A parsed submessage, kept as id, flags and raw payload bytes. -/
structure ParsedSubmessage where
  submessageId : Nat
  flags : Nat
  payload : List Nat
  deriving DecidableEq, Repr

/-- Modelled from the spec: parsing one supported submessage consumes its
4-byte header and its declared-length payload (the per-kind payload
decoders are not in the sources; the payload is kept raw, which is all the
skip behaviour depends on). -/
def readKnownSubmessage (buf : List Nat) :
    Option (ParsedSubmessage × List Nat) :=
  match readSubmessageHeader buf with
  | none => none
  | some (h, rest) =>
    if h.submessageLength ≤ rest.length then
      some (⟨h.submessageId, h.flags, rest.take h.submessageLength⟩,
        rest.drop h.submessageLength)
    else none

/-- `MAX_SUBMESSAGES`. -/
def MAX_SUBMESSAGES : Nat := 2 ^ 16

/-- The submessage loop of
`RtpsMessageRead::mapping_read_byte_order_info_in_data`: at most `fuel`
iterations; it stops when fewer than 4 bytes remain; a supported id is
parsed and collected (a parse failure aborts the whole message, the `?`
operator); an unknown id has its 4-byte header read and its declared
length consumed (`buf.consume`, whose out-of-bounds panic is modelled as
`none`), and parsing continues with the next submessage. -/
def parseSubmessagesLoop : Nat → List Nat → Option (List ParsedSubmessage)
  | 0, _ => some []
  | fuel + 1, buf =>
    match buf with
    | id :: fl :: l0 :: l1 :: rest =>
      if knownSubmessageIds.contains id then
        match readKnownSubmessage (id :: fl :: l0 :: l1 :: rest) with
        | none => none
        | some (sub, bufNext) =>
          match parseSubmessagesLoop fuel bufNext with
          | none => none
          | some subs => some (sub :: subs)
      else
        let len := if fl % 2 = 1 then l0 + 256 * l1 else l1 + 256 * l0
        if len ≤ rest.length then parseSubmessagesLoop fuel (rest.drop len)
        else none
    | _ => some []

/-- Modelled from the spec: the whole-message parse reads the 20-byte RTPS
header (kept raw) and then runs the submessage loop with
`MAX_SUBMESSAGES` iterations. -/
def parseRtpsMessage (buf : List Nat) :
    Option (List Nat × List ParsedSubmessage) :=
  if 20 ≤ buf.length then
    match parseSubmessagesLoop MAX_SUBMESSAGES (buf.drop 20) with
    | none => none
    | some subs => some (buf.take 20, subs)
  else none

/-- C6: a submessage whose id is not supported is skipped by exactly its
declared length — the parser consumes its 4-byte header plus
`submessage_length` payload bytes, adds nothing to the result, and
continues parsing with the following submessage: parsing the unknown
submessage followed by `rest` yields exactly the parse of `rest`. -/
theorem C6_unknown_submessage_skipped (fuel : Nat) (id fl l0 l1 : Nat)
    (payload rest : List Nat)
    (hid : knownSubmessageIds.contains id = false)
    (hlen : payload.length
      = (if fl % 2 = 1 then l0 + 256 * l1 else l1 + 256 * l0)) :
    parseSubmessagesLoop (fuel + 1) (id :: fl :: l0 :: l1 :: (payload ++ rest))
      = parseSubmessagesLoop fuel rest := by
  simp only [parseSubmessagesLoop, hid, Bool.false_eq_true, if_false]
  rw [← hlen]
  rw [if_pos (by rw [List.length_append]; omega)]
  rw [List.drop_left]

/-- C6 witness: the theorem applied to the repository's own test vector —
an unknown id `0x99` with flags `0b0101_0011` and declared length 4. -/
theorem C6_unknown_submessage_skipped_witness :
    parseSubmessagesLoop 2 (0x99 :: 0x53 :: 4 :: 0 :: ([9, 9, 9, 9] ++ []))
      = parseSubmessagesLoop 1 [] := by
  exact C6_unknown_submessage_skipped 1 0x99 0x53 4 0 [9, 9, 9, 9] []
    (by decide) (by decide)

/-! ## SequenceNumberSet (`rtps_udp_psm/src/submessage_elements.rs`) -/

/-- `SequenceNumberSetUdp`.  The source stores the base as a
`SequenceNumberUdp {high: i32, low: u32}` pair with lossless i64
conversions, modelled directly as the i64 value; the `[i32; 8]` bitmap is
modelled as a word-indexed function (indices ever written are `< 8` for
in-range inputs; an out-of-range delta would panic in the source). -/
structure SequenceNumberSetUdp where
  base : SequenceNumber
  num_bits : Nat
  bitmap : Nat → Nat

/-- One step of the loop in `SequenceNumberSetUdp::new`: compute
`delta_n = (sequence_number - base) as u32`, OR bit `31 - delta_n % 32` into
word `delta_n / 32`, and raise `num_bits` to `delta_n + 1` when larger. -/
def snsStep (base : SequenceNumber) (st : (Nat → Nat) × Nat)
    (sequence_number : SequenceNumber) : (Nat → Nat) × Nat :=
  let delta_n := ((sequence_number - base) % (2 ^ 32 : Int)).toNat
  let bitmap_num := delta_n / 32
  (Function.update st.1 bitmap_num
      (st.1 bitmap_num ||| (1 <<< (31 - delta_n % 32))),
   if delta_n + 1 > st.2 then delta_n + 1 else st.2)

/-- `SequenceNumberSetUdp::new`. -/
def SequenceNumberSetUdp.new (base : SequenceNumber)
    (set : List SequenceNumber) : SequenceNumberSetUdp :=
  let st := set.foldl (snsStep base) (fun _ => 0, 0)
  ⟨base, st.2, st.1⟩

/-- `SequenceNumberSetUdp::len`: `12 + 4·⌈num_bits/32⌉` bytes. -/
def SequenceNumberSetUdp.len (s : SequenceNumberSetUdp) : Nat :=
  12 + 4 * ((s.num_bits + 31) / 32)

/-- `SequenceNumberSetUdp::set`: the sequence numbers whose bit is set, in
ascending delta order. -/
def SequenceNumberSetUdp.set (s : SequenceNumberSetUdp) :
    List SequenceNumber :=
  (List.range s.num_bits).filterMap (fun delta_n =>
    if s.bitmap (delta_n / 32) &&& (1 <<< (31 - delta_n % 32))
        = 1 <<< (31 - delta_n % 32)
    then some (s.base + (delta_n : Int)) else none)

/-- The claim's `num_bits`: `max(S) − b + 1`, and 0 when `S` is empty. -/
def c1NumBits (b : SequenceNumber) (l : List SequenceNumber) : Nat :=
  match l.max? with
  | none => 0
  | some m => (m - b + 1).toNat

theorem c1NumBits_cons (b x : Int) (xs : List Int)
    (hx : b ≤ x) (hxs : ∀ y ∈ xs, b ≤ y) :
    c1NumBits b (x :: xs) = max ((x - b).toNat + 1) (c1NumBits b xs) := by
  cases hm : xs.max? with
  | none =>
    have h1 : (x :: xs).max? = some x := by rw [List.max?_cons, hm]; rfl
    have h2 : c1NumBits b xs = 0 := by unfold c1NumBits; rw [hm]
    have h3 : c1NumBits b (x :: xs) = (x - b + 1).toNat := by
      unfold c1NumBits; rw [h1]
    rw [h2, h3]
    omega
  | some m =>
    have hbm : b ≤ m :=
      hxs m (List.max?_mem (fun a b => max_choice a b) hm)
    have h1 : (x :: xs).max? = some (max x m) := by
      rw [List.max?_cons, hm]; rfl
    have h2 : c1NumBits b xs = (m - b + 1).toNat := by
      unfold c1NumBits; rw [hm]
    have h3 : c1NumBits b (x :: xs) = (max x m - b + 1).toNat := by
      unfold c1NumBits; rw [h1]
    rw [h2, h3]
    rcases le_total x m with h | h
    · rw [max_eq_right h]; omega
    · rw [max_eq_left h]; omega

theorem c1NumBits_ge (b x : Int) (l : List Int)
    (hmem : x ∈ l) (hb : b ≤ x) (hrange : ∀ y ∈ l, b ≤ y) :
    (x - b).toNat + 1 ≤ c1NumBits b l := by
  cases hm : l.max? with
  | none =>
    rw [List.max?_eq_none_iff] at hm
    subst hm
    cases hmem
  | some m =>
    have h2 : c1NumBits b l = (m - b + 1).toNat := by
      unfold c1NumBits; rw [hm]
    have hxm : x ≤ (l.max?).getD 0 := le_max?_getD_of_mem l x hmem
    rw [hm] at hxm
    simp only [Option.getD_some] at hxm
    rw [h2]
    omega

theorem c1NumBits_le (b : Int) (l : List Int)
    (hrange : ∀ y ∈ l, b ≤ y ∧ y ≤ b + 255) :
    c1NumBits b l ≤ 256 := by
  cases hm : l.max? with
  | none =>
    have h2 : c1NumBits b l = 0 := by unfold c1NumBits; rw [hm]
    omega
  | some m =>
    have h2 : c1NumBits b l = (m - b + 1).toNat := by
      unfold c1NumBits; rw [hm]
    have hmm : m ∈ l := List.max?_mem (fun a b => max_choice a b) hm
    have := hrange m hmm
    omega

/-- The `num_bits` component of the fold is the running maximum of
`delta + 1`. -/
theorem snsStep_fold_num (b : Int) :
    ∀ (l : List Int) (st : (Nat → Nat) × Nat),
    (∀ y ∈ l, b ≤ y ∧ y ≤ b + 255) →
    (l.foldl (snsStep b) st).2 = max st.2 (c1NumBits b l) := by
  intro l
  induction l with
  | nil =>
    intro st _
    simp [c1NumBits]
  | cons x xs ih =>
    intro st hr
    have hx := hr x (List.mem_cons_self x xs)
    have hxs : ∀ y ∈ xs, b ≤ y ∧ y ≤ b + 255 :=
      fun y hy => hr y (List.mem_cons_of_mem x hy)
    rw [List.foldl_cons, ih (snsStep b st x) hxs,
      c1NumBits_cons b x xs hx.1 (fun y hy => (hxs y hy).1)]
    have hdelta : ((x - b) % (2 ^ 32 : Int)).toNat = (x - b).toNat := by
      rw [Int.emod_eq_of_lt (by omega) (by omega)]
    show max (if ((x - b) % (2 ^ 32 : Int)).toNat + 1 > st.2 then
        ((x - b) % (2 ^ 32 : Int)).toNat + 1 else st.2) (c1NumBits b xs)
      = max st.2 (max ((x - b).toNat + 1) (c1NumBits b xs))
    rw [hdelta]
    split_ifs with h <;> omega

theorem and_shift_eq_iff_testBit (x p : Nat) :
    (x &&& (1 <<< p) = 1 <<< p) ↔ x.testBit p = true := by
  rw [Nat.shiftLeft_eq, one_mul, Nat.and_two_pow]
  have h2 : 0 < 2 ^ p := Nat.two_pow_pos p
  cases hb : x.testBit p
  · simp only [Bool.toNat_false]
    constructor
    · intro h; omega
    · intro h; cases h
  · simp only [Bool.toNat_true, one_mul]

/-- A bit of the folded bitmap is set exactly when the initial bitmap had
it or some processed sequence number addresses that word and position. -/
theorem snsStep_fold_bitmap (b : Int) (l : List Int) :
    ∀ (st : (Nat → Nat) × Nat) (j p : Nat),
    (((l.foldl (snsStep b) st).1 j).testBit p = true ↔
      ((st.1 j).testBit p = true ∨ ∃ sn ∈ l,
        ((sn - b) % (2 ^ 32 : Int)).toNat / 32 = j
        ∧ 31 - ((sn - b) % (2 ^ 32 : Int)).toNat % 32 = p)) := by
  induction l with
  | nil =>
    intro st j p
    simp
  | cons x xs ih =>
    intro st j p
    rw [List.foldl_cons, ih]
    constructor
    · rintro (hst | ⟨sn, hsn, h1, h2⟩)
      · by_cases hj : j = ((x - b) % (2 ^ 32 : Int)).toNat / 32
        · have hup : (snsStep b st x).1 j
              = st.1 (((x - b) % (2 ^ 32 : Int)).toNat / 32)
                ||| (1 <<< (31 - ((x - b) % (2 ^ 32 : Int)).toNat % 32)) := by
            show Function.update st.1 _ _ j = _
            rw [Function.update_apply, if_pos hj]
          rw [hup, Nat.testBit_or, Bool.or_eq_true] at hst
          rcases hst with hl | hr
          · exact Or.inl (by rw [hj]; exact hl)
          · rw [Nat.shiftLeft_eq, one_mul, Nat.testBit_two_pow,
              decide_eq_true_eq] at hr
            exact Or.inr ⟨x, List.mem_cons_self x xs, hj.symm, hr⟩
        · have hup : (snsStep b st x).1 j = st.1 j := by
            show Function.update st.1 _ _ j = _
            rw [Function.update_apply, if_neg hj]
          rw [hup] at hst
          exact Or.inl hst
      · exact Or.inr ⟨sn, List.mem_cons_of_mem x hsn, h1, h2⟩
    · rintro (hst | ⟨sn, hsn, h1, h2⟩)
      · refine Or.inl ?_
        by_cases hj : j = ((x - b) % (2 ^ 32 : Int)).toNat / 32
        · show (Function.update st.1 _ _ j).testBit p = true
          rw [Function.update_apply, if_pos hj, Nat.testBit_or]
          rw [hj] at hst
          rw [hst]
          rfl
        · show (Function.update st.1 _ _ j).testBit p = true
          rw [Function.update_apply, if_neg hj]
          exact hst
      · rcases List.mem_cons.mp hsn with rfl | hsn'
        · refine Or.inl ?_
          show (Function.update st.1 _ _ j).testBit p = true
          rw [Function.update_apply, if_pos h1.symm, Nat.testBit_or,
            Nat.shiftLeft_eq, one_mul, Nat.testBit_two_pow, h2]
          simp
        · exact Or.inr ⟨sn, hsn', h1, h2⟩

/-- The `num_bits` computed by `new` equals the claim's
`max(S) − b + 1` (0 for the empty set). -/
theorem new_num_bits (b : Int) (l : List Int)
    (hrange : ∀ y ∈ l, b ≤ y ∧ y ≤ b + 255) :
    (SequenceNumberSetUdp.new b l).num_bits = c1NumBits b l := by
  show (l.foldl (snsStep b) (fun _ => 0, 0)).2 = _
  rw [snsStep_fold_num b l (fun _ => 0, 0) hrange]
  show max 0 (c1NumBits b l) = _
  omega

/-- The bit test performed by `set` holds exactly for the deltas of the
inserted sequence numbers. -/
theorem new_bit_iff (b : Int) (l : List Int)
    (hrange : ∀ x ∈ l, b ≤ x ∧ x ≤ b + 255) (d : Nat) (hd : d ≤ 255) :
    ((SequenceNumberSetUdp.new b l).bitmap (d / 32) &&& (1 <<< (31 - d % 32))
      = 1 <<< (31 - d % 32)) ↔ (b + (d : Int)) ∈ l := by
  rw [and_shift_eq_iff_testBit]
  show ((l.foldl (snsStep b) (fun _ => 0, 0)).1 (d / 32)).testBit
    (31 - d % 32) = true ↔ _
  rw [snsStep_fold_bitmap b l (fun _ => 0, 0) (d / 32) (31 - d % 32)]
  have hzero : ((fun _ => (0 : Nat), 0).1 (d / 32)).testBit (31 - d % 32)
      = false := Nat.zero_testBit _
  rw [hzero]
  simp only [Bool.false_eq_true, false_or]
  constructor
  · rintro ⟨sn, hsn, h1, h2⟩
    have hr := hrange sn hsn
    have hdelta : ((sn - b) % (2 ^ 32 : Int)).toNat = (sn - b).toNat := by
      rw [Int.emod_eq_of_lt (by omega) (by omega)]
    rw [hdelta] at h1 h2
    have heq : (sn - b).toNat = d := by omega
    have hsneq : sn = b + (d : Int) := by omega
    rwa [← hsneq]
  · intro hmem
    have hr := hrange _ hmem
    refine ⟨b + (d : Int), hmem, ?_, ?_⟩
    · have hdelta : ((b + (d : Int) - b) % (2 ^ 32 : Int)).toNat = d := by
        have hdd : b + (d : Int) - b = (d : Int) := by ring
        rw [hdd, Int.emod_eq_of_lt (by omega) (by omega)]
        omega
      rw [hdelta]
    · have hdelta : ((b + (d : Int) - b) % (2 ^ 32 : Int)).toNat = d := by
        have hdd : b + (d : Int) - b = (d : Int) := by ring
        rw [hdd, Int.emod_eq_of_lt (by omega) (by omega)]
        omega
      rw [hdelta]

/-- Two strictly sorted integer lists with the same members are equal. -/
theorem sorted_lt_eq_of_mem_iff :
    ∀ (l1 l2 : List Int), l1.Sorted (· < ·) → l2.Sorted (· < ·) →
    (∀ x, x ∈ l1 ↔ x ∈ l2) → l1 = l2 := by
  intro l1
  induction l1 with
  | nil =>
    intro l2 _ _ hmem
    cases l2 with
    | nil => rfl
    | cons y ys =>
      exact absurd ((hmem y).mpr (List.mem_cons_self y ys))
        (List.not_mem_nil y)
  | cons x xs ih =>
    intro l2 h1 h2 hmem
    cases l2 with
    | nil =>
      exact absurd ((hmem x).mp (List.mem_cons_self x xs))
        (List.not_mem_nil x)
    | cons y ys =>
      have hxy : x = y := by
        rcases List.mem_cons.mp ((hmem x).mp (List.mem_cons_self x xs)) with
          h | hx'
        · exact h
        · rcases List.mem_cons.mp ((hmem y).mpr (List.mem_cons_self y ys))
            with h | hy'
          · exact h.symm
          · have c1 := List.rel_of_sorted_cons h2 x hx'
            have c2 := List.rel_of_sorted_cons h1 y hy'
            linarith
      subst hxy
      have htails : ∀ z, z ∈ xs ↔ z ∈ ys := by
        intro z
        constructor
        · intro hz
          have hlt := List.rel_of_sorted_cons h1 z hz
          rcases List.mem_cons.mp ((hmem z).mp (List.mem_cons_of_mem x hz))
            with h | h
          · exact absurd h (by intro he; subst he; exact lt_irrefl z hlt)
          · exact h
        · intro hz
          have hlt := List.rel_of_sorted_cons h2 z hz
          rcases List.mem_cons.mp ((hmem z).mpr (List.mem_cons_of_mem x hz))
            with h | h
          · exact absurd h (by intro he; subst he; exact lt_irrefl z hlt)
          · exact h
      rw [ih ys h1.of_cons h2.of_cons htails]

/-- C1: for a base `b` and a strictly ascending list of sequence numbers
inside `[b, b+255]`, `new(b, S).set()` returns exactly `S` (in ascending
order) and the serialized length is `12 + 4·⌈num_bits/32⌉` bytes with
`num_bits = max(S) − b + 1` (0 when `S` is empty). -/
theorem C1_sequence_number_set (b : Int) (l : List Int)
    (hsorted : l.Sorted (· < ·))
    (hrange : ∀ x ∈ l, b ≤ x ∧ x ≤ b + 255) :
    (SequenceNumberSetUdp.new b l).set = l
    ∧ (SequenceNumberSetUdp.new b l).len
        = 12 + 4 * ((c1NumBits b l + 31) / 32) := by
  constructor
  · have hcongr : (SequenceNumberSetUdp.new b l).set
        = (List.range (c1NumBits b l)).filterMap
            (fun (d : Nat) => if (b + (d : Int)) ∈ l
              then some (b + (d : Int)) else none) := by
      show (List.range (SequenceNumberSetUdp.new b l).num_bits).filterMap _
        = _
      rw [new_num_bits b l hrange]
      refine List.filterMap_congr (fun d hd => ?_)
      have hdlt : d < c1NumBits b l := List.mem_range.mp hd
      have hd255 : d ≤ 255 := by
        have := c1NumBits_le b l hrange
        omega
      have hiff := new_bit_iff b l hrange d hd255
      exact if_congr hiff rfl rfl
    rw [hcongr]
    apply sorted_lt_eq_of_mem_iff
    · refine List.pairwise_filterMap.mpr ?_
      refine (List.pairwise_lt_range _).imp ?_
      intro a a' haa z hz z' hz'
      by_cases hc : (b + (a : Int)) ∈ l
      · by_cases hc' : (b + (a' : Int)) ∈ l
        · rw [if_pos hc] at hz
          rw [if_pos hc'] at hz'
          simp only [Option.mem_def, Option.some.injEq] at hz hz'
          subst hz
          subst hz'
          omega
        · rw [if_neg hc'] at hz'
          cases hz'
      · rw [if_neg hc] at hz
        cases hz
    · exact hsorted
    · intro x
      constructor
      · intro hx
        obtain ⟨d, _, hfd⟩ := List.mem_filterMap.mp hx
        by_cases hc : (b + (d : Int)) ∈ l
        · rw [if_pos hc] at hfd
          cases hfd
          exact hc
        · rw [if_neg hc] at hfd
          cases hfd
      · intro hx
        have hr := hrange x hx
        refine List.mem_filterMap.mpr ⟨(x - b).toNat, ?_, ?_⟩
        · refine List.mem_range.mpr ?_
          have := c1NumBits_ge b x l hx hr.1
            (fun y hy => (hrange y hy).1)
          omega
        · have hxb : b + (((x - b).toNat : Nat) : Int) = x := by omega
          rw [if_pos (by rwa [hxb]), hxb]
  · show 12 + 4 * (((SequenceNumberSetUdp.new b l).num_bits + 31) / 32) = _
    rw [new_num_bits b l hrange]

/-- C1 witness: base 10 with set {10, 12, 45}: `set()` returns the list in
ascending order and the serialized length field counts 2 bitmap words. -/
theorem C1_sequence_number_set_witness :
    (SequenceNumberSetUdp.new 10 [10, 12, 45]).set = [10, 12, 45]
    ∧ (SequenceNumberSetUdp.new 10 [10, 12, 45]).len
        = 12 + 4 * ((c1NumBits 10 [10, 12, 45] + 31) / 32) := by
  exact C1_sequence_number_set 10 [10, 12, 45]
    (by simp [List.Sorted]) (by decide)

/-! ## Theorems for C7 (history-cache uniqueness) -/

/-- A concrete cache change used in the C7 counterexample. -/
def c7Change : RTPSCacheChangeImpl :=
  ⟨ChangeKind.Alive, ⟨0, 0⟩, 0, 1, []⟩

/-- C7 counterexample: `add_change` pushes unconditionally, so adding a
change whose sequence number (1) is already present produces a duplicate
entry — the very same `CacheChange` appears twice in the cache, refuting
the claim that this cannot happen. -/
theorem C7_counterexample :
    ((RTPSHistoryCacheImpl.new.add_change c7Change).add_change c7Change).changes
      = [c7Change, c7Change]
    ∧ ¬ ((RTPSHistoryCacheImpl.new.add_change c7Change).add_change
          c7Change).changes.Nodup := by
  constructor
  · rfl
  · decide

/-- C7 (amended): `add_change` performs no duplicate check, so uniqueness
holds only for operation sequences that never add an already-present
sequence number: if all sequence numbers in a cache are pairwise distinct,
then adding a change with a fresh sequence number preserves distinctness
(hence no `CacheChange` appears twice), and removing a sequence number
preserves distinctness; the writer-side cache behaves the same way. -/
theorem C7_amended (hc : RTPSHistoryCacheImpl) (c : RTPSCacheChangeImpl)
    (sn : SequenceNumber) (whc : WriterHistoryCache) (wc : WriterCacheChange)
    (whc' : WriterHistoryCache)
    (h : (hc.changes.map RTPSCacheChangeImpl.sequenceNumber).Nodup)
    (hfresh : c.sequenceNumber ∉ hc.changes.map RTPSCacheChangeImpl.sequenceNumber)
    (hw : (whc.changes.map WriterCacheChange.sequenceNumber).Nodup)
    (hwfresh : wc.sequenceNumber ∉ whc.changes.map WriterCacheChange.sequenceNumber)
    (hwadd : whc.add_change wc = some whc') :
    ((hc.add_change c).changes.map RTPSCacheChangeImpl.sequenceNumber).Nodup
    ∧ (hc.add_change c).changes.Nodup
    ∧ ((hc.remove_change sn).changes.map RTPSCacheChangeImpl.sequenceNumber).Nodup
    ∧ (whc'.changes.map WriterCacheChange.sequenceNumber).Nodup
    ∧ whc'.changes.Nodup := by
  have hadd : ((hc.add_change c).changes.map
      RTPSCacheChangeImpl.sequenceNumber).Nodup := by
    simp only [RTPSHistoryCacheImpl.add_change, List.map_append, List.map_cons,
      List.map_nil]
    simp [List.nodup_append, h, hfresh]
  have hwchanges : whc'.changes = whc.changes ++ [wc] := by
    unfold WriterHistoryCache.add_change at hwadd
    cases hk : wc.kind <;> simp [hk] at hwadd <;> simp [← hwadd]
  have hwadd' : ((whc'.changes).map WriterCacheChange.sequenceNumber).Nodup := by
    rw [hwchanges]
    simp only [List.map_append, List.map_cons, List.map_nil]
    simp [List.nodup_append, hw, hwfresh]
  refine ⟨hadd, hadd.of_map, ?_, hwadd', hwadd'.of_map⟩
  exact h.sublist ((List.filter_sublist _).map _)

/-- C7 witness: the amended theorem applied to a one-element cache and a
fresh change with sequence number 2. -/
theorem C7_amended_witness :
    (((RTPSHistoryCacheImpl.new.add_change c7Change).add_change
        ⟨ChangeKind.Alive, ⟨0, 0⟩, 0, 2, []⟩).changes.map
      RTPSCacheChangeImpl.sequenceNumber).Nodup := by
  have h := C7_amended (RTPSHistoryCacheImpl.new.add_change c7Change)
    ⟨ChangeKind.Alive, ⟨0, 0⟩, 0, 2, []⟩ 1
    WriterHistoryCache.new ⟨ChangeKind.Alive, ⟨0, 0⟩, 1, 0, []⟩
    ⟨[⟨ChangeKind.Alive, ⟨0, 0⟩, 1, 0, []⟩]⟩
    (by decide) (by decide) (by decide) (by decide) (by decide)
  exact h.1

/-! ## Theorems for C9 (deleting a parent with live children) -/

/-- C9: deleting a parent entity that still contains live children fails
with `PreconditionNotMet` and leaves the state unchanged: a publisher with
data writers, a subscriber with data readers, and a participant that is not
empty are all left registered, children intact. -/
theorem C9_delete_parent_with_children (dp : DomainParticipantActorModel)
    (f : DomainParticipantFactoryActorModel)
    (hp hs hpart : Nat) (p : PublisherActorModel) (sub : SubscriberActorModel)
    (dpc : DomainParticipantActorModel)
    (hlp : dp.userDefinedPublisherList.lookup hp = some p)
    (hpw : p.dataWriterList ≠ [])
    (hls : dp.userDefinedSubscriberList.lookup hs = some sub)
    (hsr : sub.dataReaderList ≠ [])
    (hlf : f.domainParticipantList.lookup hpart = some dpc)
    (hne : dpc.is_empty = false) :
    dp.delete_user_defined_publisher hp =
      (dp, Except.error (DdsError.PreconditionNotMet
        "Publisher still contains data writers"))
    ∧ dp.delete_user_defined_subscriber hs =
      (dp, Except.error (DdsError.PreconditionNotMet
        "Subscriber still contains data readers"))
    ∧ f.delete_participant hpart =
      some (f, Except.error (DdsError.PreconditionNotMet
        "Domain participant still contains other entities")) := by
  refine ⟨?_, ?_, ?_⟩
  · simp [DomainParticipantActorModel.delete_user_defined_publisher, hlp,
      List.isEmpty_iff, hpw]
  · simp [DomainParticipantActorModel.delete_user_defined_subscriber, hls,
      SubscriberActorModel.is_empty, List.isEmpty_iff, hsr]
  · simp [DomainParticipantFactoryActorModel.delete_participant, hlf, hne]

/-- C9 witness: the theorem applied to a participant with one non-empty
publisher and one non-empty subscriber, inside a factory. -/
theorem C9_delete_parent_with_children_witness :
    (DomainParticipantActorModel.delete_user_defined_publisher
        ⟨[(1, ⟨[7]⟩)], [(2, ⟨[8]⟩)], []⟩ 1) =
      (⟨[(1, ⟨[7]⟩)], [(2, ⟨[8]⟩)], []⟩, Except.error
        (DdsError.PreconditionNotMet "Publisher still contains data writers")) := by
  have h := C9_delete_parent_with_children
    ⟨[(1, ⟨[7]⟩)], [(2, ⟨[8]⟩)], []⟩
    ⟨[(3, ⟨[(1, ⟨[7]⟩)], [], []⟩)]⟩
    1 2 3 ⟨[7]⟩ ⟨[8]⟩ ⟨[(1, ⟨[7]⟩)], [], []⟩
    (by rfl) (by decide) (by rfl) (by decide) (by rfl) (by rfl)
  exact h.1

end DustDds
